import Mathlib

/-!
Verification development for the `prsr` invoice-extraction repository.

The Python sources (`llm_pdf_parser.py`, `simple_pdf_parser.py`,
`pdf_parser.py`) are shallowly embedded below:

* Python strings are `List Char` (`Str`); Python `float` is modelled by the
  exact fraction type `Flt` (all float values arising in the programs are
  decimal literals and short chains of exact ratios of them, so the
  rational model agrees with IEEE doubles on every observable equality
  used here); `Flt.val` interprets it in `ℚ` for specification-level
  statements.
* Python/JSON values flowing out of `json.loads` are the inductive `JVal`;
  a Python `dict` with string keys is an association list `Obj` in
  insertion order (assignment to an existing key updates in place,
  assignment to a fresh key appends, which is `setKey`).
* `re` searches are embedded per pattern with a small backtracking
  combinator library (`P` below) whose preference order (leftmost start,
  alternatives in written order, greedy longest-first / lazy
  shortest-first) matches the Python `re` engine on the patterns used.
* Fallible Python code (statements that can raise) is embedded with
  `Except`; external capabilities (PDF text layer, OCR, the LLM HTTP
  call) enter as parameters, exactly as §1/§6 of the specification treat
  them.
-/

/-! ## Python string primitives -/

abbrev Str := List Char

def s2l (s : String) : Str := s.data

def l2s (l : Str) : String := String.mk l

/-- Whitespace stripped by Python `str.strip()` (ASCII part; the inputs
handled by the parser are ASCII plus the rupee sign). -/
def isPySpace (c : Char) : Bool :=
  c == ' ' || c == '\t' || c == '\n' || c == '\r' || c == '\x0b' || c == '\x0c'

/-- Python `str.strip()`. -/
def pyStrip (l : Str) : Str :=
  ((l.dropWhile isPySpace).reverse.dropWhile isPySpace).reverse

def lowerS (l : Str) : Str := l.map Char.toLower

def upperS (l : Str) : Str := l.map Char.toUpper

def isPrefixB : Str → Str → Bool
  | [], _ => true
  | _ :: _, [] => false
  | a :: as, b :: bs => a == b && isPrefixB as bs

/-- Python `needle in hay` (case-sensitive substring test). -/
def containsS (needle hay : Str) : Bool :=
  match hay with
  | [] => isPrefixB needle []
  | _ :: t => isPrefixB needle hay || containsS needle t

/-- `needle.lower() in hay.lower()`. -/
def ciContains (needle hay : Str) : Bool :=
  containsS (lowerS needle) (lowerS hay)

/-- Python `str.find(sub)`: index of first occurrence, `none` for `-1`. -/
def findSub (hay needle : Str) : Option Nat :=
  match hay with
  | [] => if isPrefixB needle [] then some 0 else none
  | _ :: t =>
    if isPrefixB needle hay then some 0
    else (findSub t needle).map (· + 1)

/-- Python `str.split('\n')` (keeps empty pieces). -/
def splitNl (l : Str) : List Str :=
  go l []
where
  go : Str → Str → List Str
  | [], acc => [acc.reverse]
  | c :: cs, acc => if c == '\n' then acc.reverse :: go cs [] else go cs (c :: acc)

/-- Python `str.capitalize()` (ASCII). -/
def pyCapitalize (s : String) : String :=
  match s.data with
  | [] => s
  | c :: cs => l2s (c.toUpper :: cs.map Char.toLower)

def isLatinUpper (c : Char) : Bool := 'A' ≤ c && c ≤ 'Z'

def isLatinLower (c : Char) : Bool := 'a' ≤ c && c ≤ 'z'

def isLatin (c : Char) : Bool := isLatinUpper c || isLatinLower c

def isDig (c : Char) : Bool := '0' ≤ c && c ≤ '9'

/-- Python `str.isupper()` (ASCII cased characters: at least one cased
character and no lowercase one). -/
def pyIsUpper (l : Str) : Bool :=
  l.any isLatin && !(l.any isLatinLower)

/-! ## Python floats

Modelled as unreduced exact fractions with integer arithmetic only, so
that every computation of the embedded programs evaluates inside the
kernel.  The denominators produced by the embedded code are always
positive and nonzero (powers of ten and code-guarded divisors). -/

structure Flt where
  num : ℤ
  den : ℤ
  deriving DecidableEq

/-- Value in `ℚ`, for specification-level statements. -/
def Flt.val (f : Flt) : ℚ := (f.num : ℚ) / (f.den : ℚ)

def Flt.ofInt (n : ℤ) : Flt := ⟨n, 1⟩

/-- Python `x * y` on floats. -/
def Flt.mul (a b : Flt) : Flt := ⟨a.num * b.num, a.den * b.den⟩

/-- Python `x / y` on floats (callers guard the divisor against zero). -/
def Flt.div (a b : Flt) : Flt := ⟨a.num * b.den, a.den * b.num⟩

/-- Division by a positive integer literal (`tax_rate / 2` etc.). -/
def Flt.divNat (a : Flt) (n : ℕ) : Flt := ⟨a.num, a.den * n⟩

/-- Python `x > 0` (denominators produced by the code are positive, and
the test multiplies through so that it is also right on negatives). -/
def Flt.isPos (f : Flt) : Bool := 0 < f.num * f.den

/-- Python float truthiness / `x != 0`. -/
def Flt.nonZero (f : Flt) : Bool := f.num != 0

def digitsVal (l : Str) : ℕ :=
  l.foldl (fun a c => a * 10 + (c.toNat - 48)) 0

/-- Exponent suffix of a float literal: scale as a fraction
`(factor, divisor)`; `none` when the remaining input is not a valid
(possibly empty) exponent. -/
def expPart : Str → Option (ℕ × ℕ)
  | [] => some (1, 1)
  | c :: r =>
    if c == 'e' || c == 'E' then
      let (neg, r1) : Bool × Str :=
        match r with
        | '+' :: t => (false, t)
        | '-' :: t => (true, t)
        | _ => (false, r)
      let ds := r1.takeWhile isDig
      let rest := r1.dropWhile isDig
      if ds.isEmpty || !rest.isEmpty then none
      else some (if neg then (1, 10 ^ digitsVal ds) else (10 ^ digitsVal ds, 1))
    else none

/-- Python `float(s)` on decimal literals (sign, digits, optional point,
optional exponent, surrounding whitespace).  `inf`/`nan` and digit
underscores are not modelled; no input in this development uses them. -/
def pyFloat (s : String) : Option Flt :=
  let l := pyStrip s.data
  let (sgn, l1) : ℤ × Str :=
    match l with
    | '+' :: t => (1, t)
    | '-' :: t => (-1, t)
    | _ => (1, l)
  let ip := l1.takeWhile isDig
  let l2 := l1.dropWhile isDig
  match l2 with
  | '.' :: r =>
    let fp := r.takeWhile isDig
    let r1 := r.dropWhile isDig
    if ip.isEmpty && fp.isEmpty then none
    else
      (expPart r1).map fun (eN, eD) =>
        ⟨sgn * ((digitsVal ip * 10 ^ fp.length + digitsVal fp) * eN : ℕ),
         ((10 ^ fp.length * eD : ℕ) : ℤ)⟩
  | _ =>
    if ip.isEmpty then none
    else (expPart l2).map fun (eN, eD) => ⟨sgn * (digitsVal ip * eN : ℕ), ((eD : ℕ) : ℤ)⟩

/-- Decimal digits of `n / d` after the point (`d > 0`, terminating
expansions only — the only values formatted by the sources; fuel bounds
the expansion). -/
def fracDigits : ℕ → ℕ → ℕ → Str
  | 0, _, _ => []
  | fuel + 1, r, d =>
    if r = 0 then []
    else
      let r10 := r * 10
      Char.ofNat (48 + r10 / d) :: fracDigits fuel (r10 % d) d

/-- Python `str(x)` / f-string formatting of a float with a terminating
decimal expansion: integer part, `.`, fractional digits (at least one). -/
def pyFloatRepr (f : Flt) : String :=
  let sgnStr := if f.num * f.den < 0 then "-" else ""
  let n := f.num.natAbs
  let d := f.den.natAbs
  let ip := n / d
  let fr := fracDigits 40 (n % d) d
  sgnStr ++ toString ip ++ "." ++ (if fr.isEmpty then "0" else l2s fr)

/-! ## JSON / Python values -/

/-- A value produced by `json.loads` (or already-normalized Python data).
`jint` and `jnum` are kept apart because Python keeps `int` and `float`
apart, which the claims inspect. -/
inductive JVal where
  | jnull
  | jbool (b : Bool)
  | jint (n : ℤ)
  | jnum (f : Flt)
  | jstr (s : String)
  | jarr (xs : List JVal)
  | jobj (xs : List (String × JVal))

/-- Python truthiness of a `JVal`. -/
def truthy : JVal → Bool
  | .jnull => false
  | .jbool b => b
  | .jint n => n != 0
  | .jnum f => f.nonZero
  | .jstr s => s != ""
  | .jarr xs => !xs.isEmpty
  | .jobj xs => !xs.isEmpty

/-- Python `v != ""` (a non-string never equals a string). -/
def neqEmptyStr : JVal → Bool
  | .jstr s => s != ""
  | _ => true

def JVal.isNum : JVal → Bool
  | .jnum _ => true
  | _ => false

def JVal.isStr : JVal → Bool
  | .jstr _ => true
  | _ => false

/-- The `ℚ` value carried by a float entry, for specification-level
statements. -/
def jnumValQ : JVal → Option ℚ
  | .jnum f => some f.val
  | _ => none

/-- Python `str(v)` for the scalar values that ever reach an f-string in
the sources (the `error` values there are always strings). -/
def pyStr : JVal → String
  | .jnull => "None"
  | .jbool b => if b then "True" else "False"
  | .jint n => toString n
  | .jnum f => pyFloatRepr f
  | .jstr s => s
  | .jarr _ => "[...]"
  | .jobj _ => "[...]"

/-! ## Python dicts as association lists -/

/-- A Python dict with string keys, in insertion order. -/
abbrev Obj := List (String × JVal)

def lookupA (l : Obj) (k : String) : Option JVal :=
  match l with
  | [] => none
  | (a, v) :: t => if a = k then some v else lookupA t k

/-- Python `d[k] = v`: update in place when present, append when fresh. -/
def setKey (l : Obj) (k : String) (v : JVal) : Obj :=
  match l with
  | [] => [(k, v)]
  | (a, w) :: t => if a = k then (a, v) :: t else (a, w) :: setKey t k v

/-- `d[k] = v` guarded by an optional extraction result
(`if match: d[k] = ...` in the sources). -/
def setOpt (l : Obj) (k : String) (o : Option JVal) : Obj :=
  match o with
  | some v => setKey l k v
  | none => l

def keysOf (l : Obj) : List String := l.map Prod.fst

/-- Sequential dict updates (a `for`-loop of assignments). -/
def updKeys (l : Obj) (ops : List (String × JVal)) : Obj :=
  ops.foldl (fun acc p => setKey acc p.1 p.2) l

/-! ## Numeric coercion (llm_pdf_parser.py lines 346-357 and 428-438) -/

/-- `re.sub(r'[₹$,]', '', s)`. -/
def stripCur (s : String) : String :=
  l2s (s.data.filter (fun c => !(c == '₹' || c == '$' || c == ',')))

/--
One step of the normalization loop

    if normalized_data[key] and normalized_data[key] != "":
        if isinstance(normalized_data[key], str):
            normalized_data[key] = re.sub(r'[₹$,]', '', normalized_data[key])
        normalized_data[key] = float(normalized_data[key])
    except (ValueError, TypeError): normalized_data[key] = 0.0

A falsy value is left untouched; `float` of a list/dict/None raises
`TypeError`, of a non-numeric string raises `ValueError`, both caught to
`0.0`. -/
def coerceNumeric (v : JVal) : JVal :=
  if truthy v && neqEmptyStr v then
    match v with
    | .jstr s =>
      match pyFloat (stripCur s) with
      | some f => .jnum f
      | none => .jnum (Flt.ofInt 0)
    | .jint n => .jnum (Flt.ofInt n)
    | .jnum f => .jnum f
    | .jbool b => .jnum (Flt.ofInt (if b then 1 else 0))
    | _ => .jnum (Flt.ofInt 0)
  else v

/-- `float(re.sub(r'[^\d.]', '', s))` with the `ValueError` caught to
`0.0` (simple_pdf_parser.py lines 247-257, given the matched group). -/
def cleanNumber (s : String) : Flt :=
  match pyFloat (l2s (s.data.filter (fun c => isDig c || c == '.'))) with
  | some f => f
  | none => Flt.ofInt 0

/-! ## A small backtracking regex engine

A matcher state is the remaining input plus the previously consumed
character (needed for the zero-width `\b` assertion).  A pattern is a
function from a state to the list of possible successor states, in the
preference order of the Python `re` engine: alternatives in written
order, greedy pieces longest-first.  `re.search` semantics (leftmost
match wins) is `reSearch` below. -/

structure St where
  prev : Option Char
  rest : Str

abbrev P := St → List St

def pend : P := fun s => [s]

def pfailP : P := fun _ => []

def pseq (p q : P) : P := fun s => (p s).flatMap q

def pseqs (ps : List P) : P := ps.foldr pseq pend

def palt (p q : P) : P := fun s => p s ++ q s

def palts (ps : List P) : P := ps.foldr palt pfailP

/-- Single character from a class. -/
def pch (f : Char → Bool) : P := fun s =>
  match s.rest with
  | c :: cs => if f c then [⟨some c, cs⟩] else []
  | [] => []

def chEqCI (c : Char) : Char → Bool := fun d => d.toLower == c.toLower

def chEq (c : Char) : Char → Bool := fun d => d == c

/-- Literal word, optionally case-insensitively. -/
def plitL (ci : Bool) : Str → P
  | [] => pend
  | c :: cs => pseq (pch (if ci then chEqCI c else chEq c)) (plitL ci cs)

def plit (w : String) : P := plitL false w.data

def plitCI (w : String) : P := plitL true w.data

/-- Greedy `x?`. -/
def popt (p : P) : P := fun s => p s ++ [s]

/-- Greedy `c*` over a character class: successor states longest-first. -/
def manyChAux (f : Char → Bool) : Option Char → Str → List St
  | pc, [] => [⟨pc, []⟩]
  | pc, c :: cs =>
    if f c then manyChAux f (some c) cs ++ [⟨pc, c :: cs⟩] else [⟨pc, c :: cs⟩]

def pmanyCh (f : Char → Bool) : P := fun s => manyChAux f s.prev s.rest

/-- Greedy `c+` over a character class. -/
def pmany1Ch (f : Char → Bool) : P := pseq (pch f) (pmanyCh f)

def pexactCh (f : Char → Bool) : ℕ → P
  | 0 => pend
  | n + 1 => pseq (pch f) (pexactCh f n)

/-- Greedy `c{m,n}` over a character class: counts n, n-1, …, m. -/
def prepCh (m n : ℕ) (f : Char → Bool) : P :=
  palts ((List.range (n + 1 - m)).map (fun i => pexactCh f (n - i)))

def pexactP (p : P) : ℕ → P
  | 0 => pend
  | n + 1 => pseq p (pexactP p n)

/-- Greedy `(...){m,n}` for a composite piece. -/
def prepP (m n : ℕ) (p : P) : P :=
  palts ((List.range (n + 1 - m)).map (fun i => pexactP p (n - i)))

/-- Greedy `(...)*` for a composite piece (fueled by the input length;
each iteration must consume, which every piece used below does). -/
def pstarAux (p : P) : ℕ → St → List St
  | 0, s => [s]
  | fuel + 1, s =>
    (((p s).filter (fun s1 => s1.rest.length < s.rest.length)).flatMap (pstarAux p fuel)) ++ [s]

def pstarP (p : P) : P := fun s => pstarAux p (s.rest.length + 1) s

/-- Word characters for `\b` (ASCII, matching the inputs handled). -/
def isWordC (c : Char) : Bool := isLatin c || isDig c || c == '_'

/-- Zero-width `\b`. -/
def pbound : P := fun s =>
  let lw := match s.prev with | some c => isWordC c | none => false
  let rw := match s.rest with | c :: _ => isWordC c | [] => false
  if lw != rw then [s] else []

/-- Zero-width `$` (no `re.MULTILINE` in the sources: end of input or just
before a final newline). -/
def peos : P := fun s =>
  match s.rest with
  | [] => [s]
  | ['\n'] => [s]
  | _ => []

/-- Zero-width lookahead `(?=...)`. -/
def plook (p : P) : P := fun s => if (p s).isEmpty then [] else [s]

/-- `\s*` (the regex class `\s` coincides with `isPySpace` on ASCII). -/
def pws : P := pmanyCh isPySpace

/-- `\s+`. -/
def pws1 : P := pmany1Ch isPySpace

/-- Run a piece and also return the span of characters it consumed
(capture groups and `group(0)` extraction). -/
def captureSpan (p : P) : St → List (Str × St) := fun s =>
  (p s).map (fun s1 => (s.rest.take (s.rest.length - s1.rest.length), s1))

def firstSome {α : Type} : List (Option α) → Option α
  | [] => none
  | o :: t => match o with | some a => some a | none => firstSome t

/-- Match `pre (grp) post` at a fixed position; returns the text captured
by the group and the state after the whole match, following the engine's
preference order. -/
def matchG (pre grp post : P) : St → Option (Str × St) := fun s =>
  firstSome ((pre s).map (fun s1 =>
    firstSome ((captureSpan grp s1).map (fun cs2 =>
      match post cs2.2 with
      | s3 :: _ => some (cs2.1, s3)
      | [] => none))))

/-- `re.search`: try every start position left to right. -/
def reSearchAux {α : Type} (f : St → Option α) : Option Char → Str → Option α
  | pc, [] => f ⟨pc, []⟩
  | pc, c :: cs =>
    match f ⟨pc, c :: cs⟩ with
    | some a => some a
    | none => reSearchAux f (some c) cs

def reSearch {α : Type} (f : St → Option α) (text : Str) : Option α :=
  reSearchAux f none text

/-- `re.search(..., text).group(1)`. -/
def searchGrp (pre grp post : P) (text : Str) : Option Str :=
  (reSearch (matchG pre grp post) text).map Prod.fst

/-- `re.search(..., text).group(0)` (span of the whole match). -/
def searchSpan (p : P) (text : Str) : Option Str :=
  (reSearch (fun s => firstSome ((captureSpan p s).map (fun cs => some cs.1))) text)

/-- `re.findall`: non-overlapping matches, scanning left to right and
continuing after each match end. -/
def findAllAux {α : Type} (f : St → Option (α × St)) : ℕ → Option Char → Str → List α
  | 0, _, _ => []
  | _ + 1, pc, [] =>
    match f ⟨pc, []⟩ with
    | some (a, _) => [a]
    | none => []
  | fuel + 1, pc, c :: cs =>
    match f ⟨pc, c :: cs⟩ with
    | some (a, s2) =>
      if s2.rest.length < cs.length + 1 then a :: findAllAux f fuel s2.prev s2.rest
      else a :: findAllAux f fuel (some c) cs
    | none => findAllAux f fuel (some c) cs

def reFindAll {α : Type} (f : St → Option (α × St)) (text : Str) : List α :=
  findAllAux f (text.length + 1) none text

/-! ## GSTIN tokens -/

def isUpAZ (c : Char) : Bool := isLatinUpper c

def isAlnumUp (c : Char) : Bool := isDig c || isLatinUpper c

/-- The fixed GSTIN shape
`[0-9]{2}[A-Z]{5}[0-9]{4}[A-Z][0-9A-Z]{1}[Z]{1}[0-9A-Z]{1}`
as a class list. -/
def gstinClasses : List (Char → Bool) :=
  [isDig, isDig, isUpAZ, isUpAZ, isUpAZ, isUpAZ, isUpAZ,
   isDig, isDig, isDig, isDig, isUpAZ, isAlnumUp, fun c => c == 'Z', isAlnumUp]

/-- Read an exact class sequence at the current position. -/
def takeShape : List (Char → Bool) → St → Option (Str × St)
  | [], s => some ([], s)
  | f :: fs, s =>
    match s.rest with
    | [] => none
    | c :: cs =>
      if f c then (takeShape fs ⟨some c, cs⟩).map (fun gs1 => (c :: gs1.1, gs1.2)) else none

/-- The GSTIN shape as a pattern (for use as a capture group). -/
def gstinGrab : P := pseqs (gstinClasses.map pch)

/-- `re.findall` of the GSTIN pattern over the document. -/
def findAllGSTIN (text : Str) : List Str :=
  reFindAll (fun s => takeShape gstinClasses s) text

/-! ## SimplePDFParser._extract_gstin (simple_pdf_parser.py lines 122-192) -/

namespace SimplePDFParser

/-- `re.search(rf"LABEL\s*GSTIN\s*:?\s*({GSTIN})", text, re.IGNORECASE)`,
used for the supplier/buyer/customer/consignee labelled patterns. -/
def labelGstin (label : String) (text : Str) : Option Str :=
  searchGrp
    (pseqs [plitCI label, pws, plitCI "GSTIN", pws, popt (pch (fun c => c == ':')), pws])
    gstinGrab pend text

/-- `re.search(r"GST\s*No\.?:?\s*({GSTIN})", text, re.IGNORECASE)`. -/
def gstNoGstin (text : Str) : Option Str :=
  searchGrp
    (pseqs [plitCI "GST", pws, plitCI "No", popt (pch (fun c => c == '.')),
            popt (pch (fun c => c == ':')), pws])
    gstinGrab pend text

/-- `re.search(r"GSTIN\s*:?\s*({GSTIN})", text, re.IGNORECASE)`. -/
def gstinSimple (text : Str) : Option Str :=
  searchGrp
    (pseqs [plitCI "GSTIN", pws, popt (pch (fun c => c == ':')), pws])
    gstinGrab pend text

/-- The three context strings passed to `_extract_gstin` by
`SimplePDFParser.parse` (lines 334, 342, 352). -/
inductive GCtx | supplier | buyer | consignee

def ctxStr : GCtx → String
  | .supplier => "Supplier|Seller|From|GSTIN"
  | .buyer => "Buyer|Customer|Bill to|GSTIN"
  | .consignee => "Consignee|Ship to|GSTIN"

/-- The interpolated regex `rf"{context}.*?{GSTIN}"` is a top-level
alternation: the `|`-separated words of the context string become bare
alternatives (whose match leaves the capture group unset) and the final
`GSTIN` word fuses with `.*?({GSTIN})`. -/
def ctxWords : GCtx → List String
  | .supplier => ["Supplier", "Seller", "From"]
  | .buyer => ["Buyer", "Customer", "Bill to"]
  | .consignee => ["Consignee", "Ship to"]

/-- Lazy `.*?` under `re.DOTALL` followed by the GSTIN capture group:
the earliest GSTIN token at or after the current position. -/
def lazyGstin : Option Char → Str → Option Str
  | pc, [] => (takeShape gstinClasses ⟨pc, []⟩).map Prod.fst
  | pc, c :: cs =>
    match takeShape gstinClasses ⟨pc, c :: cs⟩ with
    | some gs => some gs.1
    | none => lazyGstin (some c) cs

/-- One attempt of the alternation of `rf"{context}.*?{G}"` at a fixed
position: `some none` when a bare context word matches (capture group
`None`), `some (some g)` when the `GSTIN.*?(G)` branch matches. -/
def ctxAltAt (ws : List String) : St → Option (Option Str) := fun s =>
  match ws with
  | [] =>
    match plitCI "GSTIN" s with
    | s1 :: _ => (lazyGstin s1.prev s1.rest).map some
    | [] => none
  | w :: rest =>
    match plitCI w s with
    | _ :: _ => some none
    | [] => ctxAltAt rest s

/-- `re.search(rf"{context}.*?{GSTIN}", text, re.IGNORECASE | re.DOTALL)`. -/
def ctxGstinSearch (c : GCtx) (text : Str) : Option (Option Str) :=
  reSearch (ctxAltAt (ctxWords c)) text

/-- `m.strip() if m else ""` on a token string. -/
def stripOrEmpty (g : Str) : Str := if g.isEmpty then [] else pyStrip g

/-- `SimplePDFParser._extract_gstin(context)` at the three context
strings used by `parse`.  The `word in context` tests of the source are
substring tests on the context string and are computed here on
`ctxStr c`. -/
def extract_gstin (c : GCtx) (text : Str) : Str :=
  let ctx := s2l (ctxStr c)
  let supplierish := ["Supplier", "Seller", "From"].any (fun w => containsS (s2l w) ctx)
  let sup :=
    if supplierish then
      firstSome [labelGstin "Supplier" text, labelGstin "Seller" text, labelGstin "From" text]
    else none
  match sup with
  | some g => stripOrEmpty g
  | none =>
  let buyerish := ["Buyer", "Customer", "Bill to", "Ship to", "Consignee"].any
      (fun w => containsS (s2l w) ctx)
  let buy :=
    if buyerish then
      firstSome [labelGstin "Buyer" text, labelGstin "Customer" text,
                 gstNoGstin text, labelGstin "Consignee" text]
    else none
  match buy with
  | some g => stripOrEmpty g
  | none =>
  match ctxGstinSearch c text with
  | some none => []
  | some (some g) => stripOrEmpty g
  | none =>
  let simple := if containsS (s2l "GSTIN") ctx then gstinSimple text else none
  match simple with
  | some g => stripOrEmpty g
  | none =>
  let ms := findAllGSTIN text
  if !ms.isEmpty then
    if supplierish && decide (0 < ms.length) then stripOrEmpty (ms.getD 0 [])
    else if (["Buyer", "Customer", "Bill to"].any (fun w => containsS (s2l w) ctx))
            && decide (1 < ms.length) then stripOrEmpty (ms.getD 1 [])
    else if (["Ship to", "Consignee"].any (fun w => containsS (s2l w) ctx))
            && decide (2 < ms.length) then stripOrEmpty (ms.getD 2 [])
    else stripOrEmpty (ms.getD 0 [])
  else []

end SimplePDFParser

/-- Absence of every contextual anchor label (case-insensitively), the
premise of the GSTIN positional-fallback property. -/
def noAnchors (text : Str) : Bool :=
  ["Supplier", "Seller", "From", "Buyer", "Customer", "Bill to",
   "Ship to", "Consignee", "GSTIN", "GST"].all
    (fun w => !(ciContains (s2l w) text))

/-- Case-insensitive prefix test (relates literal matching to substring
absence). -/
def ciPrefixB (w l : Str) : Bool := isPrefixB (lowerS w) (lowerS l)

/-! ## LLMPDFParser (llm_pdf_parser.py) -/

namespace LLMPDFParser

/-- `_extract_text_with_pypdf` / `_extract_text_with_ocr`: the extractor
capability result enters as an `Except` and the sources' `try/except`
turns any exception into `""` (lines 43-58 and 60-76). -/
def runExtractor (r : Except Unit String) : String :=
  match r with
  | .ok s => s
  | .error _ => ""

/-- `LLMPDFParser.extract_text` (llm_pdf_parser.py lines 78-93;
`SimplePDFParser.extract_text`, simple_pdf_parser.py lines 56-71, is
textually identical). -/
def extract_text (pypdfRes ocrRes : Except Unit String) : String :=
  let text := runExtractor pypdfRes
  if (pyStrip text.data).length < 100 then
    let ocr_text := runExtractor ocrRes
    if (pyStrip ocr_text.data).length > (pyStrip text.data).length then ocr_text else text
  else text

/-- Truthiness of an optional credential string (`api_key or
os.environ.get(...)`: `None` and `""` are falsy). -/
def credTruthy : Option String → Bool
  | some s => s != ""
  | none => false

/-- `LLMPDFParser.__init__` (lines 19-41): the environment variables
enter as parameters; returns the stored `(llm_provider, api_key)` on
success, the `ValueError` message otherwise. -/
def init (api_key : Option String) (llm_provider : String)
    (openai_api_key : Option String) (envGoogle envOpenai : Option String) :
    Except String (String × String) :=
  let prov := l2s (lowerS (s2l llm_provider))
  if prov = "google" then
    let key := if credTruthy api_key then api_key else envGoogle
    if credTruthy key then .ok (prov, key.getD "")
    else .error "Google API key is required. Either pass it explicitly or set GOOGLE_API_KEY environment variable."
  else if prov = "openai" then
    let key := if credTruthy openai_api_key then openai_api_key else envOpenai
    if credTruthy key then .ok (prov, key.getD "")
    else .error "OpenAI API key is required. Either pass it explicitly or set OPENAI_API_KEY environment variable."
  else .error "Invalid LLM provider. Supported providers are 'google' and 'openai'."

/-- The fully-defaulted canonical record of `_normalize_invoice_data`
(lines 285-316), in source order. -/
def canonicalDefaults (serial : String) : Obj :=
  [("Serial Number", .jstr serial),
   ("Document Type", .jstr "Tax Invoice"),
   ("Invoice/Document Number", .jstr ""),
   ("Invoice/Document Date", .jstr ""),
   ("Supplier Name", .jstr ""),
   ("Supplier GSTIN", .jstr ""),
   ("Supplier Address", .jstr ""),
   ("Buyer Name", .jstr ""),
   ("Buyer GSTIN", .jstr ""),
   ("Buyer Address", .jstr ""),
   ("Consignee Name", .jstr ""),
   ("Consignee GSTIN", .jstr ""),
   ("Consignee Address", .jstr ""),
   ("PO Number", .jstr ""),
   ("SO Number", .jstr ""),
   ("STR Number", .jstr ""),
   ("Box Count", .jstr ""),
   ("Total Quantity", .jnum (Flt.ofInt 0)),
   ("Subtotal/Taxable Value", .jnum (Flt.ofInt 0)),
   ("CGST Amount", .jnum (Flt.ofInt 0)),
   ("SGST Amount", .jnum (Flt.ofInt 0)),
   ("IGST Amount", .jnum (Flt.ofInt 0)),
   ("CESS Amount", .jnum (Flt.ofInt 0)),
   ("Additional Charges / Round Off", .jnum (Flt.ofInt 0)),
   ("Total Invoice Value", .jnum (Flt.ofInt 0)),
   ("Reverse Charge", .jstr "No"),
   ("IRN No", .jstr ""),
   ("E-Way Bill No", .jstr ""),
   ("Amount in Words", .jstr ""),
   ("Additional Remarks", .jstr "")]

/-- The raw-to-canonical field translation table (lines 328-339). -/
def fieldMapping : List (String × String) :=
  [("Document Type", "Document Type"),
   ("Invoice Number", "Invoice/Document Number"),
   ("Invoice Date", "Invoice/Document Date"),
   ("Supplier Name", "Supplier Name"),
   ("Supplier GSTIN", "Supplier GSTIN"),
   ("Supplier Address", "Supplier Address"),
   ("Buyer Name", "Buyer Name"),
   ("Buyer GSTIN", "Buyer GSTIN"),
   ("Buyer Address", "Buyer Address"),
   ("Total Invoice Value", "Total Invoice Value")]

/-- The designated numeric canonical fields (lines 347-349). -/
def numericKeys : List String :=
  ["Total Quantity", "Subtotal/Taxable Value", "CGST Amount", "SGST Amount",
   "IGST Amount", "CESS Amount", "Additional Charges / Round Off", "Total Invoice Value"]

/-- The effective source object of the overlay loop on an arbitrary
`invoice_data` value.  A non-dict raises `TypeError` on `llm_field in
invoice_data` or on indexing — except that membership in a string is a
substring test and membership in a list is element equality, so those
raise only when some field name occurs. -/
def overlayRes : JVal → Except Unit (List (String × JVal))
  | .jobj o => .ok o
  | .jstr s =>
    if fieldMapping.any (fun p => containsS (s2l p.1) (s2l s)) then .error () else .ok []
  | .jarr xs =>
    if fieldMapping.any (fun p => xs.any (fun v =>
        match v with
        | .jstr t => t == p.1
        | _ => false)) then .error ()
    else .ok []
  | _ => .error ()

/-- One iteration of the numeric coercion loop. -/
def coerceKey (l : Obj) (k : String) : Obj :=
  setKey l k (coerceNumeric ((lookupA l k).getD .jnull))

/-- The remark written by the `except Exception` branch of
`_normalize_invoice_data`; the Python exception text following the colon
is not modelled. -/
def normalizeErrMsg : String := "Error normalizing data: "

/-- `LLMPDFParser._normalize_invoice_data` (lines 282-367). -/
def normalize_invoice_data (serial provider : String) (resp : Obj) : Obj :=
  let d := canonicalDefaults serial
  match lookupA resp "error" with
  | some e => setKey d "Additional Remarks" (.jstr ("Error in LLM extraction: " ++ pyStr e))
  | none =>
    let idat := (lookupA resp "invoice_data").getD (.jobj [])
    match overlayRes idat with
    | .error _ => setKey d "Additional Remarks" (.jstr normalizeErrMsg)
    | .ok o =>
      let ops := fieldMapping.filterMap (fun p => (lookupA o p.1).map (fun v => (p.2, v)))
      let d1 := updKeys d ops
      let d2 := numericKeys.foldl coerceKey d1
      setKey d2 "Additional Remarks"
        (.jstr ("Extracted with " ++ pyCapitalize provider ++ " LLM"))

/-- The fully-defaulted line-item record of `_normalize_line_items`
(lines 381-401), in source order. -/
def itemDefaults (serial : String) (invNum : JVal) (i : ℕ) : Obj :=
  [("Invoice Serial Number", .jstr serial),
   ("Invoice Number", invNum),
   ("Line #", .jint ((i : ℤ) + 1)),
   ("PO Identifier", .jstr ""),
   ("Item/SKU Code", .jstr ""),
   ("Item Description", .jstr ""),
   ("HSN Code", .jstr ""),
   ("Quantity", .jnum (Flt.ofInt 0)),
   ("UOM", .jstr ""),
   ("Unit Price", .jnum (Flt.ofInt 0)),
   ("Discount", .jnum (Flt.ofInt 0)),
   ("Tax Rate", .jstr ""),
   ("CGST Rate", .jstr ""),
   ("SGST Rate", .jstr ""),
   ("IGST Rate", .jstr ""),
   ("CGST Amount", .jnum (Flt.ofInt 0)),
   ("SGST Amount", .jnum (Flt.ofInt 0)),
   ("IGST Amount", .jnum (Flt.ofInt 0)),
   ("Line Total Value", .jnum (Flt.ofInt 0))]

/-- The line-item field translation table (lines 404-421). -/
def itemFieldMapping : List (String × String) :=
  [("Line Number", "Line #"),
   ("Item/SKU Code", "Item/SKU Code"),
   ("Item Description", "Item Description"),
   ("HSN Code", "HSN Code"),
   ("Quantity", "Quantity"),
   ("Unit of Measurement", "UOM"),
   ("Unit Price", "Unit Price"),
   ("Discount", "Discount"),
   ("Tax Rate", "Tax Rate"),
   ("CGST Rate", "CGST Rate"),
   ("SGST Rate", "SGST Rate"),
   ("IGST Rate", "IGST Rate"),
   ("CGST Amount", "CGST Amount"),
   ("SGST Amount", "SGST Amount"),
   ("IGST Amount", "IGST Amount"),
   ("Line Total Value", "Line Total Value")]

/-- The designated numeric line-item fields (lines 429-430). -/
def itemNumericKeys : List String :=
  ["Quantity", "Unit Price", "Discount", "CGST Amount", "SGST Amount",
   "IGST Amount", "Line Total Value"]

/-- `llm_response.get("invoice_data", {}).get("Invoice Number", "")`
(line 383): `.get` on a present non-dict raises `AttributeError`
(caught by the enclosing `except`, emptying the item list). -/
def getInvNum (resp : Obj) : Except Unit JVal :=
  match lookupA resp "invoice_data" with
  | none => .ok (.jstr "")
  | some (.jobj o) => .ok ((lookupA o "Invoice Number").getD (.jstr ""))
  | some _ => .error ()

/-- `for i, item in enumerate(line_items)` on an arbitrary value:
iterating a dict yields its keys, a string yields its characters, a
non-iterable raises `TypeError`. -/
def enumItems : JVal → Except Unit (List JVal)
  | .jarr xs => .ok xs
  | .jobj xs => .ok (xs.map (fun p => .jstr p.1))
  | .jstr s => .ok (s.data.map (fun c => .jstr (l2s [c])))
  | _ => .error ()

/-- `llm_field in item` / `item[llm_field]` on an arbitrary item value
(same raising behaviour as `overlayRes`). -/
def itemField (item : JVal) (lf : String) : Except Unit (Option JVal) :=
  match item with
  | .jobj o => .ok (lookupA o lf)
  | .jstr s => if containsS (s2l lf) (s2l s) then .error () else .ok none
  | .jarr xs =>
    if xs.any (fun v =>
        match v with
        | .jstr t => t == lf
        | _ => false) then .error ()
    else .ok none
  | _ => .error ()

/-- The per-item overlay loop (lines 424-426), threading the possible
`TypeError`. -/
def overlayItem (item : JVal) : Obj → List (String × String) → Except Unit Obj
  | acc, [] => .ok acc
  | acc, (lf, nf) :: rest =>
    match itemField item lf with
    | .error _ => .error ()
    | .ok none => overlayItem item acc rest
    | .ok (some v) => overlayItem item (setKey acc nf v) rest

/-- The item loop of `_normalize_line_items` (lines 379-440); any raise
aborts the whole loop (the enclosing `except` returns `[]`). -/
def buildItems (serial : String) (resp : Obj) : ℕ → List JVal → Except Unit (List Obj)
  | _, [] => .ok []
  | i, item :: rest =>
    match getInvNum resp with
    | .error _ => .error ()
    | .ok invNum =>
      match overlayItem item (itemDefaults serial invNum i) itemFieldMapping with
      | .error _ => .error ()
      | .ok d1 =>
        let d2 := itemNumericKeys.foldl coerceKey d1
        match buildItems serial resp (i + 1) rest with
        | .error _ => .error ()
        | .ok others => .ok (d2 :: others)

/-- `LLMPDFParser._normalize_line_items` (lines 369-446). -/
def normalize_line_items (serial : String) (resp : Obj) : List Obj :=
  if (lookupA resp "error").isSome || (lookupA resp "line_items").isNone then []
  else
    match enumItems ((lookupA resp "line_items").getD .jnull) with
    | .error _ => []
    | .ok xs =>
      match buildItems serial resp 0 xs with
      | .ok l => l
      | .error _ => []

/-! ### `_extract_basic_info_from_text` (lines 448-574): the regex
fallback extractor -/

def basicDefaults (serial provider : String) : Obj :=
  [("Serial Number", .jstr serial),
   ("Document Type", .jstr "Tax Invoice"),
   ("Invoice/Document Number", .jstr ""),
   ("Invoice/Document Date", .jstr ""),
   ("Supplier Name", .jstr ""),
   ("Supplier GSTIN", .jstr ""),
   ("Supplier Address", .jstr ""),
   ("Buyer Name", .jstr ""),
   ("Buyer GSTIN", .jstr ""),
   ("Buyer Address", .jstr ""),
   ("Total Invoice Value", .jnum (Flt.ofInt 0)),
   ("Additional Remarks",
    .jstr ("Extracted with fallback method due to " ++ pyCapitalize provider ++ " API failure"))]

def isInvNumC (c : Char) : Bool := isLatin c || isDig c || c == '/' || c == '-' || c == '_'

def isDateSep (c : Char) : Bool := c == '-' || c == '/' || c == '.'

def isNotNl (c : Char) : Bool := !(c == '\n')

def pcolonOpt : P := popt (pch (fun c => c == ':'))

def pdotOpt : P := popt (pch (fun c => c == '.'))

/-- `r"Invoice\s*No\.?\s*:?\s*([A-Za-z0-9/\-_]+)"` (IGNORECASE). -/
def patInvoiceNo (text : Str) : Option Str :=
  searchGrp (pseqs [plitCI "Invoice", pws, plitCI "No", pdotOpt, pws, pcolonOpt, pws])
    (pmany1Ch isInvNumC) pend text

/-- `r"Document\s*No\s*:?\s*([A-Za-z0-9/\-_]+)"` (IGNORECASE). -/
def patDocumentNo (text : Str) : Option Str :=
  searchGrp (pseqs [plitCI "Document", pws, plitCI "No", pws, pcolonOpt, pws])
    (pmany1Ch isInvNumC) pend text

/-- `r"(Mensa/[A-Z]{2}/[A-Z]{3}/\d+)"`, searched with IGNORECASE here so
`[A-Z]` also matches lowercase letters. -/
def patMensaCI (text : Str) : Option Str :=
  searchGrp pend
    (pseqs [plitCI "Mensa/", pexactCh isLatin 2, pch (fun c => c == '/'),
            pexactCh isLatin 3, pch (fun c => c == '/'), pmany1Ch isDig]) pend text

/-- The numeric date group: one or two digits, a separator (dash, slash
or dot), one or two digits, a separator, two to four digits. -/
def dateGrpNumeric : P :=
  pseqs [prepCh 1 2 isDig, pch isDateSep, prepCh 1 2 isDig, pch isDateSep, prepCh 2 4 isDig]

/-- `(\d{1,2}[A-Za-z]{3}\d{2,4})`. -/
def dateGrpMon : P :=
  pseqs [prepCh 1 2 isDig, pexactCh isLatin 3, prepCh 2 4 isDig]

/-- `r"Invoice\s*Date\s*:\s*(...)"`. -/
def patInvoiceDate (text : Str) : Option Str :=
  searchGrp (pseqs [plitCI "Invoice", pws, plitCI "Date", pws, pch (fun c => c == ':'), pws])
    dateGrpNumeric pend text

/-- `Date`, `\s*`, `:`, `\s*`, then the numeric date group. -/
def patDateColon (text : Str) : Option Str :=
  searchGrp (pseqs [plitCI "Date", pws, pch (fun c => c == ':'), pws]) dateGrpNumeric pend text

/-- `r"Date\s*:\s*(\d{1,2}[A-Za-z]{3}\d{2,4})"`. -/
def patDateMon (text : Str) : Option Str :=
  searchGrp (pseqs [plitCI "Date", pws, pch (fun c => c == ':'), pws]) dateGrpMon pend text

/-- `r"Date\s*of\s*Supply\s*:\s*(...)"`. -/
def patDateSupply (text : Str) : Option Str :=
  searchGrp (pseqs [plitCI "Date", pws, plitCI "of", pws, plitCI "Supply", pws,
    pch (fun c => c == ':'), pws]) dateGrpNumeric pend text

def buyerLabels : P :=
  palts [plitCI "Buyer", plitCI "Bill To", plitCI "Customer", plitCI "Ship To",
         plitCI "Billed To"]

/-- `r"(?:Buyer|Bill To|Customer|Ship To|Billed To)\s*:\s*([^\n]+)"`. -/
def patBuyerColon (text : Str) : Option Str :=
  searchGrp (pseqs [buyerLabels, pws, pch (fun c => c == ':'), pws]) (pmany1Ch isNotNl) pend text

/-- `r"(?:Buyer|Bill To|Customer|Ship To|Billed To)\s*Name\s*:\s*([^\n]+)"`. -/
def patBuyerNameLbl (text : Str) : Option Str :=
  searchGrp (pseqs [buyerLabels, pws, plitCI "Name", pws, pch (fun c => c == ':'), pws])
    (pmany1Ch isNotNl) pend text

/-- `r"Details\s*of\s*Receiver\s*[^:]*:\s*([^\n]+)"`. -/
def patReceiver (text : Str) : Option Str :=
  searchGrp (pseqs [plitCI "Details", pws, plitCI "of", pws, plitCI "Receiver", pws,
    pmanyCh (fun c => !(c == ':')), pch (fun c => c == ':'), pws]) (pmany1Ch isNotNl) pend text

/-- `r"Legal\s*Name\s*:?\s*([^\n]+)"`. -/
def patLegalName (text : Str) : Option Str :=
  searchGrp (pseqs [plitCI "Legal", pws, plitCI "Name", pws, pcolonOpt, pws])
    (pmany1Ch isNotNl) pend text

/-- The `known_buyers` loop (lines 527-536): the first known buyer
occurring in the text sets `Buyer Name` to the first line containing it;
the loop then stops when `Buyer Name` is truthy. -/
def knownBuyersLoop (lines : List Str) (text : Str) : Obj → List String → Obj
  | rec, [] => rec
  | rec, b :: rest =>
    if ciContains (s2l b) text then
      let rec1 :=
        match lines.find? (fun ln => ciContains (s2l b) ln) with
        | some ln => setKey rec "Buyer Name" (.jstr (l2s (pyStrip ln)))
        | none => rec
      if truthy ((lookupA rec1 "Buyer Name").getD .jnull) then rec1
      else knownBuyersLoop lines text rec1 rest
    else knownBuyersLoop lines text rec rest

/-- `r"(Myntra\s*Jabong\s*India\s*Pvt\s*Ltd)"` (IGNORECASE). -/
def patMyntra (text : Str) : Option Str :=
  searchSpan (pseqs [plitCI "Myntra", pws, plitCI "Jabong", pws, plitCI "India", pws,
    plitCI "Pvt", pws, plitCI "Ltd"]) text

/-- `r"(SVS\s*Warehouse[^\n]+(?:\n[^\n]+){1,3})"` (case-sensitive). -/
def patSVS (text : Str) : Option Str :=
  searchSpan (pseqs [plit "SVS", pws, plit "Warehouse", pmany1Ch isNotNl,
    prepP 1 3 (pseq (pch (fun c => c == '\n')) (pmany1Ch isNotNl))]) text

def isMoneyC (c : Char) : Bool := isDig c || c == ',' || c == '.'

/-- `(\d[\d,.]+\.\d+)`. -/
def moneyDecGrp : P :=
  pseqs [pch isDig, pmany1Ch isMoneyC, pch (fun c => c == '.'), pmany1Ch isDig]

/-- `(?:₹|Rs\.?)?`. -/
def pcurOpt : P := popt (palt (pch (fun c => c == '₹')) (pseq (plitCI "Rs") pdotOpt))

/-- `r"Total\s*Invoice\s*Value\s*(?:in\s*INR)?\s*:?\s*(?:₹|Rs\.?)?\s*"`. -/
def patTotalInvValPre : P :=
  pseqs [plitCI "Total", pws, plitCI "Invoice", pws, plitCI "Value", pws,
    popt (pseqs [plitCI "in", pws, plitCI "INR"]), pws, pcolonOpt, pws, pcurOpt, pws]

def patGrandTotalPre : P :=
  pseqs [plitCI "Grand", pws, plitCI "Total", pws, pcolonOpt, pws, pcurOpt, pws]

def patTotalAmountPre : P :=
  pseqs [plitCI "Total", pws, plitCI "Amount", pws, pcolonOpt, pws, pcurOpt, pws]

def patTotalPre : P :=
  pseqs [plitCI "Total", pws, pcolonOpt, pws, pcurOpt, pws]

/-- The `total_patterns` battery (lines 558-563), first match wins. -/
def basicTotalSearch (text : Str) : Option Str :=
  firstSome [searchGrp patTotalInvValPre moneyDecGrp pend text,
             searchGrp patGrandTotalPre moneyDecGrp pend text,
             searchGrp patTotalAmountPre moneyDecGrp pend text,
             searchGrp patTotalPre moneyDecGrp pend text]

/-- `value_str.replace(',', '')` then `float` with the `ValueError`
leaving the default in place (lines 567-571). -/
def basicTotal (text : Str) : Option Flt :=
  match basicTotalSearch text with
  | none => none
  | some g => pyFloat (l2s (g.filter (fun c => !(c == ','))))

/-- The supplier-name scan of the first three lines (lines 502-507),
which only runs when the text has more than one line. -/
def basicSupplierName (text : Str) : Option Str :=
  let lines := splitNl text
  if lines.length > 1 then
    ((lines.take 3).find? (fun ln =>
        !(pyStrip ln).isEmpty && !(containsS (s2l "invoice") (lowerS ln)))).map pyStrip
  else none

/-- `LLMPDFParser._extract_basic_info_from_text` (lines 448-574). -/
def extract_basic_info (serial provider : String) (text : Str) : Obj :=
  let b0 := basicDefaults serial provider
  let lines := splitNl text
  let b1 :=
    if containsS (s2l "tax invoice") (lowerS text) then
      setKey b0 "Document Type" (.jstr "Tax Invoice")
    else if containsS (s2l "delivery challan") (lowerS text) then
      setKey b0 "Document Type" (.jstr "Delivery Challan")
    else b0
  let b2 := setOpt b1 "Invoice/Document Number"
    ((firstSome [patInvoiceNo text, patDocumentNo text, patMensaCI text]).map
      (fun g => .jstr (l2s (pyStrip g))))
  let b3 := setOpt b2 "Invoice/Document Date"
    ((firstSome [patInvoiceDate text, patDateColon text, patDateMon text,
                 patDateSupply text]).map (fun g => .jstr (l2s (pyStrip g))))
  let b4 := setOpt b3 "Supplier Name" ((basicSupplierName text).map (fun g => .jstr (l2s g)))
  let b5 := setOpt b4 "Buyer Name"
    ((firstSome [patBuyerColon text, patBuyerNameLbl text, patReceiver text]).map
      (fun g => .jstr (l2s (pyStrip g))))
  let b6 := setOpt b5 "Buyer Name" ((patLegalName text).map (fun g => .jstr (l2s (pyStrip g))))
  let b7 := knownBuyersLoop lines text b6 ["Myntra", "Jabong", "India Pvt Ltd"]
  let b8 := setOpt b7 "Buyer Name" ((patMyntra text).map (fun g => .jstr (l2s (pyStrip g))))
  let ms := findAllGSTIN text
  let b9 :=
    if 1 ≤ ms.length then setKey b8 "Supplier GSTIN" (.jstr (l2s (ms.getD 0 []))) else b8
  let b10 :=
    if 2 ≤ ms.length then setKey b9 "Buyer GSTIN" (.jstr (l2s (ms.getD 1 []))) else b9
  let b11 := setOpt b10 "Supplier Address"
    ((patSVS text).map (fun g =>
      .jstr (l2s (pyStrip (g.map (fun c => if c == '\n' then ' ' else c))))))
  setOpt b11 "Total Invoice Value" ((basicTotal text).map JVal.jnum)

/-- The minimal record of the no-text early return of `parse`
(lines 588-593). -/
def noTextRecord (serial : String) : Obj :=
  [("Serial Number", .jstr serial),
   ("Document Type", .jstr "Tax Invoice"),
   ("Invoice/Document Number", .jstr ""),
   ("Additional Remarks", .jstr "Failed to extract text from PDF")]

/-- `LLMPDFParser.parse` (lines 576-618), with the acquired text and the
LLM call result (a parsed JSON object, or the tagged `error` dict that
all three strategy error kinds produce) as parameters. -/
def parse (serial provider : String) (text : Str) (resp : Obj) : Obj × List Obj :=
  if text.isEmpty then (noTextRecord serial, [])
  else if (lookupA resp "error").isSome then
    (extract_basic_info serial provider text, [])
  else (normalize_invoice_data serial provider resp, normalize_line_items serial resp)

end LLMPDFParser

/-! ## Schema predicates for the normalization invariant -/

/-- The 30 canonical column names of §3, in source order (the keys of
`canonicalDefaults`). -/
def canonKeys : List String :=
  ["Serial Number", "Document Type", "Invoice/Document Number", "Invoice/Document Date",
   "Supplier Name", "Supplier GSTIN", "Supplier Address", "Buyer Name", "Buyer GSTIN",
   "Buyer Address", "Consignee Name", "Consignee GSTIN", "Consignee Address", "PO Number",
   "SO Number", "STR Number", "Box Count", "Total Quantity", "Subtotal/Taxable Value",
   "CGST Amount", "SGST Amount", "IGST Amount", "CESS Amount",
   "Additional Charges / Round Off", "Total Invoice Value", "Reverse Charge", "IRN No",
   "E-Way Bill No", "Amount in Words", "Additional Remarks"]

/-- The canonical string-typed fields (the 22 fields of §3 that are not
designated numeric). -/
def stringKeys : List String :=
  ["Serial Number", "Document Type", "Invoice/Document Number", "Invoice/Document Date",
   "Supplier Name", "Supplier GSTIN", "Supplier Address", "Buyer Name", "Buyer GSTIN",
   "Buyer Address", "Consignee Name", "Consignee GSTIN", "Consignee Address", "PO Number",
   "SO Number", "STR Number", "Box Count", "Reverse Charge", "IRN No", "E-Way Bill No",
   "Amount in Words", "Additional Remarks"]

/-- The raw overlay values for the mapped string-typed fields are strings
(when present): the normalization copies raw values into the string
fields without conversion, so this is what the schema claim needs. -/
def rawStringsOk (resp : Obj) : Prop :=
  ∀ o, lookupA resp "invoice_data" = some (.jobj o) →
    ∀ lf nf, (lf, nf) ∈ LLMPDFParser.fieldMapping → nf ≠ "Total Invoice Value" →
      ∀ v, lookupA o lf = some v → v.isStr = true

/-- A raw `Total Invoice Value` overlay (when present) is truthy or
already the float zero: the coercion loop skips falsy values, leaving
them in place. -/
def rawTIVOk (resp : Obj) : Prop :=
  ∀ o, lookupA resp "invoice_data" = some (.jobj o) →
    ∀ v, lookupA o "Total Invoice Value" = some v →
      truthy v = true ∨ v.isNum = true

/-- Intermediate record well-formedness through the normalization
pipeline: full key set, string fields hold strings, numeric slots hold
values the coercion loop will leave as (or turn into) floats. -/
def goodRec (l : Obj) : Prop :=
  keysOf l = canonKeys ∧
  (∀ k ∈ stringKeys, ∃ v, lookupA l k = some v ∧ v.isStr = true) ∧
  (∀ k ∈ LLMPDFParser.numericKeys, ∃ v, lookupA l k = some v ∧
    (truthy v = true ∨ v.isNum = true))

/-! ## Lazy-repetition combinators (for the patterns of the simple parser) -/

/-- Boolean `re.search` (whether the pattern matches anywhere). -/
def hasMatch (p : P) (text : Str) : Bool :=
  (reSearch (fun s => match p s with | [] => none | _ :: _ => some ()) text).isSome

/-- Lazy dots under `re.DOTALL` followed by a stop piece that is consumed
(`.*?X`): all states after a successful stop, earliest stop first and,
at one position, in the stop's own preference order. -/
def plazyAux (stop : P) : ℕ → St → List St
  | 0, _ => []
  | fuel + 1, s =>
    stop s ++ (match s.rest with
      | [] => []
      | c :: cs => plazyAux stop fuel ⟨some c, cs⟩)

def plazy (stop : P) : P := fun s => plazyAux stop (s.rest.length + 1) s

/-- Lazy `x*?` over a character class (the lazy capture groups):
successor states shortest-first. -/
def lazyChAux (cls : Char → Bool) : ℕ → St → List St
  | 0, _ => []
  | fuel + 1, s =>
    s :: (match s.rest with
      | c :: cs => if cls c then lazyChAux cls fuel ⟨some c, cs⟩ else []
      | [] => [])

def plazyCh (cls : Char → Bool) : P := fun s => lazyChAux cls (s.rest.length + 1) s

/-- Lazy `x+?` over a character class. -/
def plazyCh1 (cls : Char → Bool) : P := pseq (pch cls) (plazyCh cls)

/-- Lazy dots under `re.DOTALL` up to a zero-width lookahead
(`.*?(?=X)`): the states, earliest first, at which the stop piece
matches; nothing of the stop is consumed. -/
def lazyLookAux (stop : P) : ℕ → St → List St
  | 0, _ => []
  | fuel + 1, s =>
    (if (stop s).isEmpty then [] else [s]) ++
    (match s.rest with
      | [] => []
      | c :: cs => lazyLookAux stop fuel ⟨some c, cs⟩)

def plazyLook (stop : P) : P := fun s => lazyLookAux stop (s.rest.length + 1) s

/-! ## SimplePDFParser: the remaining extractors
(simple_pdf_parser.py lines 73-120 and 194-575) -/

namespace SimplePDFParser

open LLMPDFParser (pcolonOpt pdotOpt isInvNumC isNotNl isMoneyC moneyDecGrp pcurOpt
  patTotalInvValPre patTotalAmountPre patGrandTotalPre patTotalPre
  dateGrpNumeric dateGrpMon)

/-- `_extract_with_pattern` (lines 73-78): strip of capture group 1, or
the empty-string default. -/
def withPat (pre grp post : P) (text : Str) : Str :=
  match searchGrp pre grp post text with
  | some g => pyStrip g
  | none => []

/-- `_extract_document_type` (lines 80-85): first of the three known
document types occurring in the text (lowercased containment), default
`"Tax Invoice"`. -/
def extract_document_type (text : Str) : Str :=
  match ["Tax Invoice", "Delivery Challan", "Stock Transfer"].find?
      (fun dt => ciContains (s2l dt) text) with
  | some dt => s2l dt
  | none => s2l "Tax Invoice"

/-- `_extract_invoice_number` (lines 87-102): the five-pattern battery,
each through `_extract_with_pattern` (IGNORECASE), first truthy result,
default `"UNKNOWN"`. -/
def extract_invoice_number (text : Str) : Str :=
  let tries : List Str :=
    [withPat (pseqs [plitCI "Document", pws, plitCI "No", pws, pcolonOpt, pws])
       (pmany1Ch isInvNumC) pend text,
     withPat (pseqs [plitCI "Invoice", pws, plitCI "No", pdotOpt, pws, pcolonOpt, pws])
       (pmany1Ch isInvNumC) pend text,
     withPat (pseqs [plitCI "Invoice", pws, plitCI "Number", pws, pcolonOpt, pws])
       (pmany1Ch isInvNumC) pend text,
     withPat (pseqs [plitCI "Bill", pws, plitCI "No", pdotOpt, pws, pcolonOpt, pws])
       (pmany1Ch isInvNumC) pend text,
     withPat pend
       (pseqs [plitCI "Mensa/", pexactCh isLatin 2, pch (fun c => c == '/'),
               pexactCh isLatin 3, pch (fun c => c == '/'), pmany1Ch isDig]) pend text]
  match tries.find? (fun v => !v.isEmpty) with
  | some v => v
  | none => s2l "UNKNOWN"

/-- `_extract_date` (lines 104-120): the four labelled patterns, then the
bare numeric-date fallback. -/
def extract_date (text : Str) : Str :=
  let tries : List Str :=
    [withPat (pseqs [plitCI "Invoice", pws, plitCI "Date", pws, pch (fun c => c == ':'), pws])
       dateGrpNumeric pend text,
     withPat (pseqs [plitCI "Date", pws, pch (fun c => c == ':'), pws]) dateGrpNumeric pend text,
     withPat (pseqs [plitCI "Date", pws, pch (fun c => c == ':'), pws]) dateGrpMon pend text,
     withPat (pseqs [plitCI "Invoice", pws, plitCI "Date", pws, pcolonOpt, pws])
       dateGrpMon pend text]
  match tries.find? (fun v => !v.isEmpty) with
  | some v => v
  | none => withPat pend dateGrpNumeric pend text

/-- The section terminator `(?:GSTIN|PAN|` blank line `)` of the
name-and-address section pattern (line 202); the blank line is a newline,
optional whitespace, then another newline. -/
def sectionStop : P :=
  palts [plitCI "GSTIN", plitCI "PAN",
         pseqs [pch (fun c => c == '\n'), pws, pch (fun c => c == '\n')]]

/-- One keyword's section pattern (line 202): group 0 of the keyword (or
`Details of` keyword) followed by lazy dots (DOTALL) and the consumed
terminator, searched with IGNORECASE. -/
def sectionFor (kw : String) (text : Str) : Option Str :=
  searchSpan (pseq (palt (plitCI kw) (plitCI ("Details of " ++ kw))) (plazy sectionStop)) text

/-- The keyword loop (lines 200-206): first keyword whose section
pattern matches. -/
def sectionSearch (kws : List String) (text : Str) : Option Str :=
  match kws with
  | [] => none
  | kw :: rest =>
    match sectionFor kw text with
    | some sec => some sec
    | none => sectionSearch rest text

/-- `(?:Legal|Trade)?\s*Name\s*:?\s*` then the rest-of-line group,
IGNORECASE, on the section text (line 213). -/
def nameInSection (sec : Str) : Option Str :=
  searchGrp (pseqs [popt (palt (plitCI "Legal") (plitCI "Trade")), pws, plitCI "Name",
    pws, pcolonOpt, pws]) (pmany1Ch isNotNl) pend sec

/-- `Address\s*(?:1|2|Line)?\s*:?\s*` then the rest-of-line group,
IGNORECASE (line 224). -/
def addressInSection (sec : Str) : Option Str :=
  searchGrp (pseqs [plitCI "Address", pws,
    popt (palts [pch (fun c => c == '1'), pch (fun c => c == '2'), plitCI "Line"]),
    pws, pcolonOpt, pws]) (pmany1Ch isNotNl) pend sec

/-- `re.search("GSTIN|GST No|PAN", line, re.IGNORECASE)` as a boolean
(lines 235 and 237). -/
def lineHasTaxId (ln : Str) : Bool :=
  ciContains (s2l "GSTIN") ln || ciContains (s2l "GST No") ln || ciContains (s2l "PAN") ln

/-- The address-collection loop (lines 229-240): skip until the line
containing the name, then collect lines until one holds a tax id. -/
def addressLines (name : Str) : List Str → Bool → List Str
  | [], _ => []
  | ln :: rest, found =>
    if !found then
      if containsS name ln then addressLines name rest true
      else addressLines name rest false
    else if !(lineHasTaxId ln) then ln :: addressLines name rest true
    else []

/-- Python `", ".join`. -/
def joinComma : List Str → Str
  | [] => []
  | [l] => l
  | l :: ls => l ++ s2l ", " ++ joinComma ls

/-- `_extract_name_and_address` (lines 194-245). -/
def extract_name_and_address (kws : List String) (text : Str) : Str × Str :=
  let na : Str × Str :=
    match sectionSearch kws text with
    | none => ([], [])
    | some sec =>
      let lns := ((splitNl sec).map pyStrip).filter (fun l => !l.isEmpty)
      let name :=
        match nameInSection sec with
        | some g => pyStrip g
        | none =>
          match lns.find? (fun ln => !(kws.any (fun kw => ciContains (s2l kw) ln))) with
          | some ln => ln
          | none => []
      let address :=
        match addressInSection sec with
        | some g => pyStrip g
        | none => joinComma (addressLines name lns false)
      (name, address)
  (na.1.dropWhile (fun c => c == ':' || isPySpace c), na.2)

/-- `[^0-9]*`. -/
def pNonDig : P := pmanyCh (fun c => !(isDig c))

/-- The numeric group `(\d[\d,.]*)` of the amount patterns of `parse`. -/
def numTailGrp : P := pseq (pch isDig) (pmanyCh isMoneyC)

/-- `_extract_numeric_value` (lines 247-257): on a match, keep only the
digits and dots of group 1 and parse as float; `0.0` on failure or no
match. -/
def extract_numeric_value (pre grp : P) (text : Str) : Flt :=
  match searchGrp pre grp pend text with
  | some g => cleanNumber (l2s g)
  | none => Flt.ofInt 0

def preTotalQty : P :=
  pseqs [plitCI "Total", pws, palt (plitCI "Qty") (plitCI "Quantity"), pNonDig]

def preSubtotal : P :=
  pseq (palts [pseqs [plitCI "Sub", pws, plitCI "Total"],
               pseqs [plitCI "Taxable", pws, plitCI "Value"],
               pseqs [plitCI "Assessable", pws, plitCI "Value"]]) pNonDig

def preCGST : P := pseq (plitCI "CGST") pNonDig

def preSGST : P := pseq (plitCI "SGST") pNonDig

def preIGST : P := pseq (plitCI "IGST") pNonDig

def preCESS : P := pseq (plitCI "CESS") pNonDig

/-- `(\d[\d,.]+)` (the no-decimal money group, line 276). -/
def moneyNoDecGrp : P := pseq (pch isDig) (pmany1Ch isMoneyC)

/-- `Total\s*Value\s*:?\s*` with the optional currency sign (line 265). -/
def patTotalValuePre : P :=
  pseqs [plitCI "Total", pws, plitCI "Value", pws, pcolonOpt, pws, pcurOpt, pws]

/-- The five total-value prefixes in battery order (lines 261-267). -/
def totalPres : List P :=
  [patTotalInvValPre, patTotalAmountPre, patGrandTotalPre, patTotalValuePre, patTotalPre]

/-- A battery loop of `_extract_total_invoice_value` (lines 269-286):
the first pattern extracting a positive value. -/
def firstPosVal (grp : P) (text : Str) : List P → Option Flt
  | [] => none
  | p :: rest =>
    let v := extract_numeric_value p grp text
    if v.isPos then some v else firstPosVal grp text rest

/-- The in-words stop `(?:Only|only|` dot `|` newline `)` (line 289);
under IGNORECASE the two `Only` spellings are one alternative. -/
def wordsStop : P :=
  palts [plitCI "Only", pch (fun c => c == '.'), pch (fun c => c == '\n')]

/-- The in-words pattern of `_extract_total_invoice_value` (line 289),
IGNORECASE without DOTALL: `(?:Rupees|INR)\s*(?:in\s*Words)?:?\s*` with a
lazy one-or-more group of non-newline characters before the stop. -/
def wordsSearch (text : Str) : Option Str :=
  searchGrp (pseqs [palt (plitCI "Rupees") (plitCI "INR"), pws,
    popt (pseqs [plitCI "in", pws, plitCI "Words"]), pcolonOpt, pws])
    (plazyCh1 isNotNl) wordsStop text

/-- `_extract_total_invoice_value` (lines 259-295). -/
def extract_total_invoice_value (text : Str) : Flt :=
  match firstPosVal moneyDecGrp text totalPres with
  | some v => v
  | none =>
    match firstPosVal moneyNoDecGrp text totalPres with
    | some v => v
    | none =>
      match wordsSearch text with
      | some g =>
        let words := pyStrip g
        if ciContains (s2l "lakh") words || ciContains (s2l "lac") words
        then Flt.ofInt 100000 else Flt.ofInt 0
      | none => Flt.ofInt 0

def isHexC (c : Char) : Bool :=
  isDig c || ('a' ≤ c && c ≤ 'f') || ('A' ≤ c && c ≤ 'F')

/-- `IRN\s*:?\s*` then a group of exactly 64 hex characters (line 374). -/
def extract_irn (text : Str) : Str :=
  withPat (pseqs [plitCI "IRN", pws, pcolonOpt, pws]) (pexactCh isHexC 64) pend text

/-- The e-way bill pattern (line 375): `e`, one optional dash or
whitespace, `way\s*bill\s*no`, optional dot, optional colon, whitespace,
then a digit group. -/
def extract_eway (text : Str) : Str :=
  withPat (pseqs [plitCI "e", popt (pch (fun c => c == '-' || isPySpace c)),
    plitCI "way", pws, plitCI "bill", pws, plitCI "no", pdotOpt, pcolonOpt, pws])
    (pmany1Ch isDig) pend text

/-- `(?:` newline `|$)`: the consumed-newline alternative first, then
the end-of-input anchor. -/
def nlOrEnd : P := palt (pch (fun c => c == '\n')) peos

/-- The first amount-in-words pattern (line 378), searched through
`_extract_with_pattern` with DOTALL: label, `\s*:\s*`, a lazy
any-character group, then newline-or-end. -/
def amountWordsA (text : Str) : Str :=
  withPat (pseqs [palt (pseqs [plitCI "Amount", pws, plitCI "in", pws, plitCI "Words"])
                       (pseqs [plitCI "Total", pws, plitCI "in", pws, plitCI "words"]),
    pws, pch (fun c => c == ':'), pws])
    (plazyCh (fun _ => true)) nlOrEnd text

/-- The second amount-in-words pattern (line 380): `(?:Rupees|Rs\.?)\s*`,
a lazy any-character group, `Only` (IGNORECASE), newline-or-end. -/
def amountWordsB (text : Str) : Str :=
  withPat (pseqs [palt (plitCI "Rupees") (pseq (plitCI "Rs") pdotOpt), pws])
    (plazyCh (fun _ => true)) (pseq (plitCI "Only") nlOrEnd) text

/-- The company-name keywords of `parse` (line 328). -/
def companyKws : List String := ["PRIVATE", "LIMITED", "PVT", "LTD"]

/-- The company-name scan over the first ten lines (lines 320-330):
skip lines containing the document type (uppercased containment), take
the first nonempty line that is all-uppercase or holds a company
keyword. -/
def companyScan (docType : Str) : List Str → Str
  | [] => []
  | ln :: rest =>
    let l := pyStrip ln
    if containsS (upperS docType) (upperS l) then companyScan docType rest
    else if !l.isEmpty &&
        (pyIsUpper l || companyKws.any (fun kw => containsS (s2l kw) (upperS l))) then
      pyStrip l
    else companyScan docType rest

def companyName (docType : Str) (text : Str) : Str :=
  companyScan docType ((splitNl text).take 10)

/-! ### `_extract_line_items` (lines 421-575) -/

/-- The table header token alternation (line 426): `S` dot-opt `No`
dot-opt, `Sr` dot-opt whitespace `No` dot-opt, `Item Code`, `HSN`,
`Description`, `Qty`, `Rate`, `Amount`, IGNORECASE. -/
def headerAlts : P :=
  palts [pseqs [plitCI "S", pdotOpt, plitCI "No", pdotOpt],
         pseqs [plitCI "Sr", pdotOpt, pws, plitCI "No", pdotOpt],
         plitCI "Item Code", plitCI "HSN", plitCI "Description",
         plitCI "Qty", plitCI "Rate", plitCI "Amount"]

/-- The totals lookahead `(?=Total|Grand Total|Sub Total)` (line 426). -/
def totalsLook : P := palts [plitCI "Total", plitCI "Grand Total", plitCI "Sub Total"]

/-- The table-section search (lines 426-427): group 0 of a header token
followed by lazy dots (DOTALL) up to the totals lookahead. -/
def tableSearch (text : Str) : Option Str :=
  searchSpan (pseq headerAlts (plazyLook totalsLook)) text

/-- The header-line filter regex of line 437: a header token anchored at
the line end. -/
def headerLine (ln : Str) : Bool := hasMatch (pseq headerAlts peos) ln

/-- The stripped, non-empty, non-header lines of the table section
(lines 431-439). -/
def tableLines (tbl : Str) : List Str :=
  ((splitNl tbl).map pyStrip).filter (fun l => !(l.isEmpty || headerLine l))

def isUpDig (c : Char) : Bool := isLatinUpper c || isDig c

/-- The SKU group `[A-Z0-9]+(?:_[A-Z0-9]+)*` (case-sensitive, line 444). -/
def skuGrp : P :=
  pseq (pmany1Ch isUpDig)
    (pstarP (pseq (pch (fun c => c == '_')) (pmany1Ch isUpDig)))

def skuSearch (ln : Str) : Option Str := searchGrp pbound skuGrp pbound ln

/-- The HSN group `\d{4,8}` between word boundaries (line 448). -/
def hsnSearch (ln : Str) : Option Str := searchGrp pbound (prepCh 4 8 isDig) pbound ln

/-- `(?:PCS|EA|NOS|KG|GM|MT|LT)` IGNORECASE (lines 452 and 456). -/
def unitsAlt : P :=
  palts [plitCI "PCS", plitCI "EA", plitCI "NOS", plitCI "KG", plitCI "GM",
         plitCI "MT", plitCI "LT"]

/-- `\d+(?:\.\d+)?`. -/
def decNumGrp : P :=
  pseq (pmany1Ch isDig) (popt (pseq (pch (fun c => c == '.')) (pmany1Ch isDig)))

/-- The quantity search of line 452: boundary, decimal group, optional
whitespace, a unit token, boundary. -/
def qtySearch (ln : Str) : Option Str :=
  searchGrp pbound decNumGrp (pseqs [pws, unitsAlt, pbound]) ln

/-- The UOM search of line 456: a unit token between boundaries. -/
def uomSearch (ln : Str) : Option Str := searchGrp pbound unitsAlt pbound ln

/-- `\d+(?:,\d+)*(?:\.\d+)?`. -/
def commaNumGrp : P :=
  pseqs [pmany1Ch isDig,
         pstarP (pseq (pch (fun c => c == ',')) (pmany1Ch isDig)),
         popt (pseq (pch (fun c => c == '.')) (pmany1Ch isDig))]

/-- `(?:PER|PCS|EA|NOS|KG|GM|MT|LT)` for the price lookahead (line 460). -/
def priceUnits : P :=
  palts [plitCI "PER", plitCI "PCS", plitCI "EA", plitCI "NOS", plitCI "KG",
         plitCI "GM", plitCI "MT", plitCI "LT"]

/-- The price search of line 460: boundary, comma-number group,
whitespace, then a lookahead for whitespace, boundary and a unit word. -/
def priceSearch (ln : Str) : Option Str :=
  searchGrp pbound commaNumGrp
    (pseq pws (plook (pseqs [pws, pbound, priceUnits, pbound]))) ln

/-- The line-total search of line 463 (case-sensitive): boundary,
comma-number group, whitespace, end anchor. -/
def amountSearch (ln : Str) : Option Str :=
  searchGrp pbound commaNumGrp (pseq pws peos) ln

/-- The tax-rate search of line 471: a decimal group followed by a
percent sign. -/
def taxSearch (ln : Str) : Option Str :=
  searchGrp pend decNumGrp (pch (fun c => c == '%')) ln

/-- `float(group)` on a digits-and-dot shaped group (cannot fail). -/
def fltOfGrp (g : Str) : Flt := (pyFloat (l2s g)).getD (Flt.ofInt 0)

/-- `float(group.replace(",", ""))`. -/
def fltOfComma (g : Str) : Flt :=
  (pyFloat (l2s (g.filter (fun c => !(c == ','))))).getD (Flt.ofInt 0)

/-- The interpolated f-string float repr inside the description pattern
(line 484): each character matches itself case-insensitively except the
decimal point, which is the regex dot (any non-newline character, as the
search has no DOTALL). -/
def reprPat (q : Flt) : P :=
  pseqs ((pyFloatRepr q).data.map (fun c =>
    if c == '.' then pch isNotNl else pch (chEqCI c)))

/-- The description stop alternation of line 484: the HSN code, the
quantity repr, or the UOM, each between word boundaries (an empty HSN
yields two adjacent boundary checks). -/
def descStop (hsn : Str) (qty : Flt) (uom : Str) : P :=
  palts [pseqs [pbound, plitL true hsn, pbound],
         pseqs [pbound, reprPat qty, pbound],
         pseqs [pbound, plitL true uom, pbound]]

/-- The description search of line 484: the SKU code, whitespace, a lazy
non-newline group, then the stop alternation (IGNORECASE). -/
def descSearch (sku : Str) (hsn : Str) (qty : Flt) (uom : Str) (ln : Str) : Option Str :=
  searchGrp (pseq (plitL true sku) pws1) (plazyCh isNotNl) (descStop hsn qty uom) ln

/-- One table-branch line item (lines 442-513). -/
def tableItem (serial : String) (invNum : String) (text : Str) (i : ℕ) (ln : Str) : Obj :=
  let sku := (skuSearch ln).getD []
  let hsn := (hsnSearch ln).getD []
  let quantity := match qtySearch ln with
    | some g => fltOfGrp g
    | none => Flt.ofInt 1
  let uom := match uomSearch ln with
    | some g => upperS g
    | none => s2l "PCS"
  let price0 := match priceSearch ln with
    | some g => fltOfComma g
    | none => Flt.ofInt 0
  let lineTotal := match amountSearch ln with
    | some g => fltOfComma g
    | none => Flt.ofInt 0
  let unitPrice :=
    if lineTotal.isPos && !price0.nonZero && quantity.isPos
    then lineTotal.div quantity else price0
  let taxRate := match taxSearch ln with
    | some g => fltOfGrp g
    | none => Flt.ofInt 0
  let cgstR : Str :=
    if containsS (s2l "CGST") (upperS text) && taxRate.isPos
    then s2l (pyFloatRepr (taxRate.divNat 2) ++ "%") else []
  let sgstR : Str :=
    if containsS (s2l "SGST") (upperS text) && taxRate.isPos
    then s2l (pyFloatRepr (taxRate.divNat 2) ++ "%") else []
  let igstR0 : Str :=
    if containsS (s2l "IGST") (upperS text) && taxRate.isPos
    then s2l (pyFloatRepr taxRate ++ "%") else []
  let igstR :=
    if taxRate.isPos && cgstR.isEmpty && sgstR.isEmpty && igstR0.isEmpty
    then s2l (pyFloatRepr taxRate ++ "%") else igstR0
  let desc0 := match descSearch sku hsn quantity uom ln with
    | some g => pyStrip g
    | none => []
  let desc :=
    if desc0.isEmpty && decide (5 < ln.length) then
      (if decide (50 < ln.length) then ln.take 50 else ln)
    else desc0
  [("Invoice Serial Number", .jstr serial),
   ("Invoice Number", .jstr invNum),
   ("Line #", .jint ((i : ℤ) + 1)),
   ("PO Identifier", .jstr ""),
   ("Item/SKU Code", .jstr (l2s sku)),
   ("Item Description", .jstr (l2s desc)),
   ("HSN Code", .jstr (l2s hsn)),
   ("Quantity", .jnum quantity),
   ("UOM", .jstr (l2s uom)),
   ("Unit Price", .jnum unitPrice),
   ("Discount", .jnum (Flt.ofInt 0)),
   ("Tax Rate", .jstr (if taxRate.isPos then pyFloatRepr taxRate ++ "%" else "")),
   ("CGST Rate", .jstr (l2s cgstR)),
   ("SGST Rate", .jstr (l2s sgstR)),
   ("IGST Rate", .jstr (l2s igstR)),
   ("CGST Amount", .jnum (if !cgstR.isEmpty then (lineTotal.mul taxRate).divNat 200
                          else Flt.ofInt 0)),
   ("SGST Amount", .jnum (if !sgstR.isEmpty then (lineTotal.mul taxRate).divNat 200
                          else Flt.ofInt 0)),
   ("IGST Amount", .jnum (if !igstR.isEmpty then (lineTotal.mul taxRate).divNat 100
                          else Flt.ofInt 0)),
   ("Line Total Value", .jnum lineTotal)]

/-- The alternative-branch header filter tokens (line 524): `S` dot-opt
`No` dot-opt, `Sr` dot-opt whitespace `No` dot-opt, `Item Code`,
`Description`. -/
def altHeaderAlts : P :=
  palts [pseqs [plitCI "S", pdotOpt, plitCI "No", pdotOpt],
         pseqs [plitCI "Sr", pdotOpt, pws, plitCI "No", pdotOpt],
         plitCI "Item Code", plitCI "Description"]

def altHeaderLine (ln : Str) : Bool := hasMatch (pseq altHeaderAlts peos) ln

def isUpDigConn (c : Char) : Bool := isUpDig c || c == '_' || c == '-'

/-- `\b[A-Z0-9_-]{6,}\b` (case-sensitive, line 528). -/
def bigTokenTest (ln : Str) : Bool :=
  hasMatch (pseqs [pbound, pexactCh isUpDigConn 6, pmanyCh isUpDigConn, pbound]) ln

/-- `(?:PCS|NOS|EA|KG)` of the alternative branch. -/
def altUnits : P := palts [plitCI "PCS", plitCI "NOS", plitCI "EA", plitCI "KG"]

/-- `\b\d+\s*(?:PCS|NOS|EA|KG)\b` IGNORECASE (line 529). -/
def qtyUnitTest (ln : Str) : Bool :=
  hasMatch (pseqs [pbound, pmany1Ch isDig, pws, altUnits, pbound]) ln

/-- `\b\d+(?:,\d+)*(?:\.\d+)?\b` (case-sensitive, line 530). -/
def anyNumTest (ln : Str) : Bool := hasMatch (pseqs [pbound, commaNumGrp, pbound]) ln

/-- A potential item line of the alternative branch (lines 521-531): not
short, not header-like, holding a long uppercase token and a quantity or
a number. -/
def altCandidate (ln : Str) : Bool :=
  !(decide (ln.length < 10) || altHeaderLine ln) &&
  (bigTokenTest ln && (qtyUnitTest ln || anyNumTest ln))

/-- The alternative SKU group `[A-Z0-9]+(?:[_-][A-Z0-9]+)*`
(case-sensitive, line 535). -/
def altSkuGrp : P :=
  pseq (pmany1Ch isUpDig)
    (pstarP (pseq (pch (fun c => c == '_' || c == '-')) (pmany1Ch isUpDig)))

def altSkuSearch (ln : Str) : Option Str := searchGrp pbound altSkuGrp pbound ln

/-- `\b(\d+(?:\.\d+)?)\s*(?:PCS|NOS|EA|KG)\b` IGNORECASE (line 538). -/
def altQtySearch (ln : Str) : Option Str :=
  searchGrp pbound decNumGrp (pseqs [pws, altUnits, pbound]) ln

/-- `\b(PCS|NOS|EA|KG)\b` IGNORECASE (line 541). -/
def altUomSearch (ln : Str) : Option Str := searchGrp pbound altUnits pbound ln

/-- `re.findall` of the bounded comma-number group (line 545). -/
def amountsFindAll (ln : Str) : List Str :=
  reFindAll (matchG pbound commaNumGrp pbound) ln

/-- One alternative-branch line item (lines 534-573). -/
def altItem (serial : String) (invNum : String) (i : ℕ) (ln : Str) : Obj :=
  let sku := match altSkuSearch ln with
    | some g => g
    | none => s2l ("ITEM" ++ toString (i + 1))
  let quantity := match altQtySearch ln with
    | some g => fltOfGrp g
    | none => Flt.ofInt 1
  let uom := match altUomSearch ln with
    | some g => upperS g
    | none => s2l "PCS"
  let vals := ((amountsFindAll ln).filter (fun v => !v.isEmpty)).map fltOfComma
  let lineTotal := (vals.getLast?).getD (Flt.ofInt 0)
  let unitPrice :=
    if quantity.isPos && lineTotal.isPos then lineTotal.div quantity else Flt.ofInt 0
  [("Invoice Serial Number", .jstr serial),
   ("Invoice Number", .jstr invNum),
   ("Line #", .jint ((i : ℤ) + 1)),
   ("PO Identifier", .jstr ""),
   ("Item/SKU Code", .jstr (l2s sku)),
   ("Item Description", .jstr (l2s (if decide (50 < ln.length) then ln.take 50 else ln))),
   ("HSN Code", .jstr ""),
   ("Quantity", .jnum quantity),
   ("UOM", .jstr (l2s uom)),
   ("Unit Price", .jnum unitPrice),
   ("Discount", .jnum (Flt.ofInt 0)),
   ("Tax Rate", .jstr ""),
   ("CGST Rate", .jstr ""),
   ("SGST Rate", .jstr ""),
   ("IGST Rate", .jstr ""),
   ("CGST Amount", .jnum (Flt.ofInt 0)),
   ("SGST Amount", .jnum (Flt.ofInt 0)),
   ("IGST Amount", .jnum (Flt.ofInt 0)),
   ("Line Total Value", .jnum lineTotal)]

/-- `_extract_line_items` (lines 421-575): the table branch, then the
alternative branch when it produced nothing. -/
def extract_line_items (serial : String) (invNum : String) (text : Str) : List Obj :=
  let tableItems : List Obj :=
    match tableSearch text with
    | none => []
    | some tbl => (tableLines tbl).enum.map (fun p => tableItem serial invNum text p.1 p.2)
  if tableItems.isEmpty then
    (((splitNl text).map pyStrip).filter altCandidate).enum.map
      (fun p => altItem serial invNum p.1 p.2)
  else tableItems

/-- `SimplePDFParser.parse` (lines 297-419) on already-acquired text;
the serial number (a UUID in the source) enters as a parameter. -/
def parse (serial : String) (text : Str) : Obj × List Obj :=
  let document_type := extract_document_type text
  let invoice_number := extract_invoice_number text
  let invoice_date := extract_date text
  let company_name := companyName document_type text
  let supNA := extract_name_and_address ["Supplier", "Seller", "From"] text
  let supplier_gstin := extract_gstin .supplier text
  let supplier_name :=
    if supNA.1.isEmpty && !company_name.isEmpty then company_name else supNA.1
  let buyNA := extract_name_and_address ["Buyer", "Bill to", "Customer", "Receiver"] text
  let buyer_gstin := extract_gstin .buyer text
  let buyer_name :=
    if buyNA.1.isEmpty then
      match LLMPDFParser.patLegalName text with
      | some g => pyStrip g
      | none => buyNA.1
    else buyNA.1
  let conNA := extract_name_and_address ["Consignee", "Ship to"] text
  let consignee_gstin0 := extract_gstin .consignee text
  let consignee_name := if conNA.1.isEmpty then buyer_name else conNA.1
  let consignee_address := if conNA.1.isEmpty then buyNA.2 else conNA.2
  let consignee_gstin := if conNA.1.isEmpty then buyer_gstin else consignee_gstin0
  let total_quantity := extract_numeric_value preTotalQty numTailGrp text
  let subtotal := extract_numeric_value preSubtotal numTailGrp text
  let cgst := extract_numeric_value preCGST numTailGrp text
  let sgst := extract_numeric_value preSGST numTailGrp text
  let igst := extract_numeric_value preIGST numTailGrp text
  let cess := extract_numeric_value preCESS numTailGrp text
  let total_invoice_value := extract_total_invoice_value text
  let irn_no := extract_irn text
  let eway_bill_no := extract_eway text
  let words0 := amountWordsA text
  let amount_in_words := if words0.isEmpty then amountWordsB text else words0
  let invoice_data : Obj :=
    [("Serial Number", .jstr serial),
     ("Document Type", .jstr (l2s document_type)),
     ("Invoice/Document Number", .jstr (l2s invoice_number)),
     ("Invoice/Document Date", .jstr (l2s invoice_date)),
     ("Supplier Name", .jstr (l2s supplier_name)),
     ("Supplier GSTIN", .jstr (l2s supplier_gstin)),
     ("Supplier Address", .jstr (l2s supNA.2)),
     ("Buyer Name", .jstr (l2s buyer_name)),
     ("Buyer GSTIN", .jstr (l2s buyer_gstin)),
     ("Buyer Address", .jstr (l2s buyNA.2)),
     ("Consignee Name", .jstr (l2s consignee_name)),
     ("Consignee GSTIN", .jstr (l2s consignee_gstin)),
     ("Consignee Address", .jstr (l2s consignee_address)),
     ("PO Number", .jstr ""),
     ("SO Number", .jstr ""),
     ("STR Number", .jstr ""),
     ("Box Count", .jstr ""),
     ("Total Quantity", .jnum total_quantity),
     ("Subtotal/Taxable Value", .jnum subtotal),
     ("CGST Amount", .jnum cgst),
     ("SGST Amount", .jnum sgst),
     ("IGST Amount", .jnum igst),
     ("CESS Amount", .jnum cess),
     ("Additional Charges / Round Off", .jnum (Flt.ofInt 0)),
     ("Total Invoice Value", .jnum total_invoice_value),
     ("Reverse Charge", .jstr "No"),
     ("IRN No", .jstr (l2s irn_no)),
     ("E-Way Bill No", .jstr (l2s eway_bill_no)),
     ("Amount in Words", .jstr (l2s amount_in_words)),
     ("Additional Remarks", .jstr "")]
  (invoice_data, extract_line_items serial (l2s invoice_number) text)

end SimplePDFParser

/-! ## InvoiceParser._extract_gstin (pdf_parser.py lines 137-164) -/

namespace InvoiceParser

/-- The uncaught Python exception kinds of `_extract_gstin`. -/
inductive PyErr | attributeError
deriving DecidableEq

/-- The context strings `InvoiceParser.parse` passes (lines 510-512). -/
inductive ICtx | supplier | buyer | consignee

def ictxStr : ICtx → String
  | .supplier => "Supplier|Seller|From|GSTIN"
  | .buyer => "Buyer|Customer|Bill to|GSTIN"
  | .consignee => "Consignee|Ship to|GSTIN"

/-- The bare-word alternatives of the interpolated pattern
`{context_pattern}.*?(GSTIN-shape)`: the pipes of the context string make
a top-level alternation whose first alternatives do not reach the
capture group. -/
def ictxWords : ICtx → List String
  | .supplier => ["Supplier", "Seller", "From"]
  | .buyer => ["Buyer", "Customer", "Bill to"]
  | .consignee => ["Consignee", "Ship to"]

/-- `re.search` of the interpolated pattern (lines 139-140, IGNORECASE
and DOTALL): `some none` when the leftmost match took a bare context-word
alternative (the capture group stays unset), `some (some g)` when it took
the final `GSTIN` lazy-dots group alternative. -/
def ictxSearch (c : ICtx) (text : Str) : Option (Option Str) :=
  reSearch (SimplePDFParser.ctxAltAt (ictxWords c)) text

/-- The proximity loop (lines 151-159): Python `str.find` position of
each GSTIN token (minus one when absent), keeping the strictly closest
one to the context position. -/
def minLoop (text : Str) (cpos : ℤ) : List Str → Option (Str × ℕ) → Option (Str × ℕ)
  | [], acc => acc
  | g :: rest, acc =>
    let gpos : ℤ := match findSub text g with | some n => (n : ℤ) | none => -1
    let d := (gpos - cpos).natAbs
    match acc with
    | none => minLoop text cpos rest (some (g, d))
    | some (b, dm) =>
      if d < dm then minLoop text cpos rest (some (g, d))
      else minLoop text cpos rest (some (b, dm))

/-- `InvoiceParser._extract_gstin` (lines 137-164).  `match.group(1)` is
`None` when a bare context-word alternative made the match, so
`.strip()` raises `AttributeError`, uncaught in this method.  The
proximity fallback looks up `self.text.find(context_pattern)` — the find
of the literal pipe-joined pattern string. -/
def extract_gstin (c : ICtx) (text : Str) : Except PyErr Str :=
  match ictxSearch c text with
  | some none => .error .attributeError
  | some (some g) => .ok (pyStrip g)
  | none =>
    let ms := findAllGSTIN text
    if !ms.isEmpty && !(ictxStr c).isEmpty then
      match findSub text (s2l (ictxStr c)) with
      | some cpos =>
        match minLoop text (cpos : ℤ) ms none with
        | some (b, dm) => if !b.isEmpty && dm < 500 then .ok b else .ok []
        | none => .ok []
      | none => .ok []
    else .ok []

end InvoiceParser

/-- A record with the value of one key blanked: the idempotence
comparison is modulo the serial-number field and its item
back-reference. -/
def scrubAt (sk : String) (o : Obj) : Obj :=
  o.map (fun p => if p.1 = sk then (p.1, JVal.jnull) else p)

/-! ## Concrete inputs and items for the back-reference witness -/

def bkTxt : Str := s2l "HSN Description Qty Rate Amount\nWIDGET EA 1234 500\nTotal: 500"

def bkResp : Obj :=
  [("invoice_data", .jobj [("Invoice Number", .jstr "N1")]),
   ("line_items", .jarr [.jobj [("Quantity", .jstr "2")]])]

/-- The one item the simple parser extracts from `bkTxt`. -/
def bkItemS : Obj :=
  [("Invoice Serial Number", JVal.jstr "S"),
   ("Invoice Number", JVal.jstr "UNKNOWN"),
   ("Line #", JVal.jint 1),
   ("PO Identifier", JVal.jstr ""),
   ("Item/SKU Code", JVal.jstr "WIDGET"),
   ("Item Description", JVal.jstr "WIDGET EA 1234 500"),
   ("HSN Code", JVal.jstr "1234"),
   ("Quantity", JVal.jnum (Flt.mk 1 1)),
   ("UOM", JVal.jstr "EA"),
   ("Unit Price", JVal.jnum (Flt.mk 500 1)),
   ("Discount", JVal.jnum (Flt.mk 0 1)),
   ("Tax Rate", JVal.jstr ""),
   ("CGST Rate", JVal.jstr ""),
   ("SGST Rate", JVal.jstr ""),
   ("IGST Rate", JVal.jstr ""),
   ("CGST Amount", JVal.jnum (Flt.mk 0 1)),
   ("SGST Amount", JVal.jnum (Flt.mk 0 1)),
   ("IGST Amount", JVal.jnum (Flt.mk 0 1)),
   ("Line Total Value", JVal.jnum (Flt.mk 500 1))]

/-- The one item the LLM normalization builds from `bkResp`. -/
def bkItemL : Obj :=
  [("Invoice Serial Number", JVal.jstr "S"),
   ("Invoice Number", JVal.jstr "N1"),
   ("Line #", JVal.jint 1),
   ("PO Identifier", JVal.jstr ""),
   ("Item/SKU Code", JVal.jstr ""),
   ("Item Description", JVal.jstr ""),
   ("HSN Code", JVal.jstr ""),
   ("Quantity", JVal.jnum (Flt.mk 2 1)),
   ("UOM", JVal.jstr ""),
   ("Unit Price", JVal.jnum (Flt.mk 0 1)),
   ("Discount", JVal.jnum (Flt.mk 0 1)),
   ("Tax Rate", JVal.jstr ""),
   ("CGST Rate", JVal.jstr ""),
   ("SGST Rate", JVal.jstr ""),
   ("IGST Rate", JVal.jstr ""),
   ("CGST Amount", JVal.jnum (Flt.mk 0 1)),
   ("SGST Amount", JVal.jnum (Flt.mk 0 1)),
   ("IGST Amount", JVal.jnum (Flt.mk 0 1)),
   ("Line Total Value", JVal.jnum (Flt.mk 0 1))]
/-! # Theorems -/

/-! ### Claim C4 -/

/-- **C4.** Numeric coercion strips currency symbols (₹, $) and thousands
separators (commas), parses the remainder as a float, and yields `0.0` on
any parse failure; `"₹1,234.50"`, `"1234.50"` and `"abc"` coerce to
`1234.50`, `1234.50` and `0.0` respectively — both in the LLM
normalization coercion (`coerceNumeric`) and in the pattern strategy's
`_extract_numeric_value` cleaning (`cleanNumber`). -/
theorem numeric_coercion_spec :
    jnumValQ (coerceNumeric (.jstr "₹1,234.50")) = some (1234.50 : ℚ) ∧
    jnumValQ (coerceNumeric (.jstr "1234.50")) = some (1234.50 : ℚ) ∧
    jnumValQ (coerceNumeric (.jstr "abc")) = some (0 : ℚ) ∧
    (cleanNumber "₹1,234.50").val = (1234.50 : ℚ) ∧
    (cleanNumber "1234.50").val = (1234.50 : ℚ) ∧
    (cleanNumber "abc").val = (0 : ℚ) ∧
    (∀ s : String, s ≠ "" → pyFloat (stripCur s) = none →
      coerceNumeric (.jstr s) = .jnum (Flt.ofInt 0)) ∧
    (∀ s : String, pyFloat (l2s (s.data.filter (fun c => isDig c || c == '.'))) = none →
      cleanNumber s = Flt.ofInt 0) := by
  have h1 : coerceNumeric (.jstr "₹1,234.50") = .jnum ⟨123450, 100⟩ := rfl
  have h2 : coerceNumeric (.jstr "1234.50") = .jnum ⟨123450, 100⟩ := rfl
  have h3 : coerceNumeric (.jstr "abc") = .jnum (Flt.ofInt 0) := rfl
  have h4 : cleanNumber "₹1,234.50" = ⟨123450, 100⟩ := by decide
  have h5 : cleanNumber "1234.50" = ⟨123450, 100⟩ := by decide
  have h6 : cleanNumber "abc" = Flt.ofInt 0 := by decide
  refine ⟨?_, ?_, ?_, ?_, ?_, ?_, ?_, ?_⟩
  · rw [h1]; simp [jnumValQ, Flt.val]; norm_num
  · rw [h2]; simp [jnumValQ, Flt.val]; norm_num
  · rw [h3]; simp [jnumValQ, Flt.val, Flt.ofInt]
  · rw [h4]; simp [Flt.val]; norm_num
  · rw [h5]; simp [Flt.val]; norm_num
  · rw [h6]; simp [Flt.val, Flt.ofInt]
  · intro s hne h
    have ht : (truthy (.jstr s) && neqEmptyStr (.jstr s)) = true := by
      simp [truthy, neqEmptyStr, hne]
    unfold coerceNumeric
    simp only [ht, if_true, h]
  · intro s h
    unfold cleanNumber
    simp only [h]

/-- Witness for C4: the universally quantified failure clauses applied at
the concrete uncoercible input `"x9x"`. -/
theorem numeric_coercion_spec_witness :
    coerceNumeric (.jstr "x9x") = .jnum (Flt.ofInt 0) ∧
    cleanNumber "zz" = Flt.ofInt 0 :=
  ⟨numeric_coercion_spec.2.2.2.2.2.2.1 "x9x" (by decide) (by decide),
   numeric_coercion_spec.2.2.2.2.2.2.2 "zz" (by decide)⟩

/-! ### Engine lemmas: pattern searches fail when their leading literal
is absent from the text -/

theorem containsS_cons_false {n : Str} {c : Char} {t : Str}
    (h : containsS n (c :: t) = false) :
    isPrefixB n (c :: t) = false ∧ containsS n t = false := by
  unfold containsS at h
  constructor
  · cases hp : isPrefixB n (c :: t) <;> simp_all
  · cases hc : containsS n t <;> simp_all

theorem pseq_left {p q : P} {s : St} (h : pseq p q s ≠ []) : p s ≠ [] := by
  intro hp
  apply h
  unfold pseq
  rw [hp]
  rfl

theorem plitL_ne_nil_ciPrefix : ∀ (w : Str) (s : St), plitL true w s ≠ [] →
    ciPrefixB w s.rest = true := by
  intro w
  induction w with
  | nil => intro s _; rfl
  | cons c cs ih =>
    intro s h
    have hc : pch (chEqCI c) s ≠ [] := by
      have := pseq_left (p := pch (if true then chEqCI c else chEq c))
        (q := plitL true cs) (s := s) h
      simpa using this
    unfold pch at hc
    match hrest : s.rest with
    | [] => rw [hrest] at hc; exact absurd rfl hc
    | c' :: cs' =>
      rw [hrest] at hc
      by_cases hf : chEqCI c c' = true
      · have hrec : plitL true cs ⟨some c', cs'⟩ ≠ [] := by
          intro hnil
          apply h
          show pseq (pch (if true then chEqCI c else chEq c)) (plitL true cs) s = []
          unfold pseq pch
          rw [hrest]
          simp only [if_true, hf, if_pos]
          simp [hnil]
        have hpre := ih ⟨some c', cs'⟩ hrec
        unfold ciPrefixB at hpre ⊢
        show isPrefixB (c.toLower :: lowerS cs) (c'.toLower :: lowerS cs') = true
        unfold isPrefixB
        have heq : c.toLower = c'.toLower := (eq_of_beq hf).symm
        simp only [heq, beq_self_eq_true, Bool.true_and]
        exact hpre
      · simp [hf] at hc

theorem matchG_pre {pre grp post : P} {s : St}
    (h : (matchG pre grp post s).isSome = true) : pre s ≠ [] := by
  intro hp
  unfold matchG at h
  rw [hp] at h
  simp [firstSome] at h

theorem reSearchAux_isNone {α : Type} (f : St → Option α) (ws : List Str)
    (hf : ∀ s, (f s).isSome = true → ∃ w ∈ ws, ciPrefixB w s.rest = true) :
    ∀ (l : Str) (pc : Option Char),
      (∀ w ∈ ws, containsS (lowerS w) (lowerS l) = false) →
      reSearchAux f pc l = none := by
  intro l
  induction l with
  | nil =>
    intro pc h
    show f ⟨pc, []⟩ = none
    match hfv : f ⟨pc, []⟩ with
    | none => rfl
    | some a =>
      exfalso
      obtain ⟨w, hw, hpre⟩ := hf ⟨pc, []⟩ (by rw [hfv]; rfl)
      have hcon := h w hw
      unfold ciPrefixB at hpre
      simp only [lowerS, List.map_nil] at hpre
      unfold containsS at hcon
      simp only [lowerS, List.map_nil] at hcon
      rw [hpre] at hcon
      exact absurd hcon (by simp)
  | cons c cs ih =>
    intro pc h
    show (match f ⟨pc, c :: cs⟩ with
          | some a => some a
          | none => reSearchAux f (some c) cs) = none
    match hfv : f ⟨pc, c :: cs⟩ with
    | some a =>
      exfalso
      obtain ⟨w, hw, hpre⟩ := hf ⟨pc, c :: cs⟩ (by rw [hfv]; rfl)
      have hcon := h w hw
      have hl : lowerS (c :: cs) = c.toLower :: lowerS cs := rfl
      rw [hl] at hcon
      have := (containsS_cons_false hcon).1
      unfold ciPrefixB at hpre
      rw [hl] at hpre
      rw [this] at hpre
      exact absurd hpre (by simp)
    | none =>
      have hrec : ∀ w ∈ ws, containsS (lowerS w) (lowerS cs) = false := by
        intro w hw
        have hcon := h w hw
        have hl : lowerS (c :: cs) = c.toLower :: lowerS cs := rfl
        rw [hl] at hcon
        exact (containsS_cons_false hcon).2
      exact ih (some c) hrec

/-- A `searchGrp` whose `pre` begins with a case-insensitive literal
fails when that literal does not occur in the text. -/
theorem searchGrp_lit_none (w : String) (tail grp post : P) (text : Str)
    (h : ciContains (s2l w) text = false) :
    searchGrp (pseq (plitCI w) tail) grp post text = none := by
  unfold searchGrp reSearch
  rw [reSearchAux_isNone _ [s2l w] ?_ text none ?_]
  · rfl
  · intro s hs
    refine ⟨s2l w, by simp, ?_⟩
    exact plitL_ne_nil_ciPrefix (s2l w) s (pseq_left (matchG_pre hs))
  · intro v hv
    simp at hv
    subst hv
    exact h

/-! ### GSTIN token shape facts -/

theorem takeShape_shape : ∀ (cls : List (Char → Bool)) (s : St) (g : Str) (s1 : St),
    (∀ f ∈ cls, ∀ c, f c = true → isAlnumUp c = true) →
    takeShape cls s = some (g, s1) →
    g.length = cls.length ∧ ∀ c ∈ g, isAlnumUp c = true := by
  intro cls
  induction cls with
  | nil =>
    intro s g s1 _ h
    unfold takeShape at h
    simp at h
    obtain ⟨hg, _⟩ := h
    subst hg
    simp
  | cons f fs ih =>
    intro s g s1 hcls h
    unfold takeShape at h
    match hrest : s.rest with
    | [] => rw [hrest] at h; simp at h
    | c :: cs =>
      rw [hrest] at h
      by_cases hf : f c = true
      · simp only [hf, if_true] at h
        match hts : takeShape fs ⟨some c, cs⟩ with
        | none => rw [hts] at h; simp at h
        | some gs1 =>
          rw [hts] at h
          simp at h
          obtain ⟨hg, _⟩ := h
          obtain ⟨hlen, hall⟩ := ih ⟨some c, cs⟩ gs1.1 gs1.2
            (fun f' hf' => hcls f' (List.mem_cons_of_mem _ hf')) (by rw [hts])
          constructor
          · rw [← hg]; simp [hlen]
          · intro d hd
            rw [← hg] at hd
            rcases List.mem_cons.mp hd with h1 | h2
            · subst h1; exact hcls f (List.mem_cons_self _ _) _ hf
            · exact hall d h2
      · simp [hf] at h

theorem gstinClasses_alnum :
    ∀ f ∈ gstinClasses, ∀ c, f c = true → isAlnumUp c = true := by
  have hdg : ∀ c, isDig c = true → isAlnumUp c = true := by
    intro c h; unfold isAlnumUp; rw [h]; rfl
  have hup : ∀ c, isUpAZ c = true → isAlnumUp c = true := by
    intro c h; unfold isAlnumUp; unfold isUpAZ at h; rw [h]; simp
  have hz : ∀ c, (c == 'Z') = true → isAlnumUp c = true := by
    intro c h
    have := eq_of_beq h
    subst this
    decide
  intro f hf
  simp only [gstinClasses, List.mem_cons, List.not_mem_nil, or_false] at hf
  rcases hf with h|h|h|h|h|h|h|h|h|h|h|h|h|h|h <;>
    (subst h; first | exact hdg | exact hup | exact hz | exact fun _ h => h)

theorem findAll_gstin_shape : ∀ (fuel : ℕ) (pc : Option Char) (l : Str) (g : Str),
    g ∈ findAllAux (fun s => takeShape gstinClasses s) fuel pc l →
    g.length = 15 ∧ ∀ c ∈ g, isAlnumUp c = true := by
  intro fuel
  induction fuel with
  | zero => intro pc l g h; simp [findAllAux] at h
  | succ n ih =>
    intro pc l g h
    match l with
    | [] =>
      unfold findAllAux at h
      match hts : takeShape gstinClasses ⟨pc, []⟩ with
      | some (ga, sa) =>
        rw [hts] at h
        have hshape := takeShape_shape gstinClasses ⟨pc, []⟩ ga sa gstinClasses_alnum
          (by rw [hts])
        simp at h
        subst h
        exact hshape
      | none => rw [hts] at h; simp at h
    | c :: cs =>
      unfold findAllAux at h
      match hts : takeShape gstinClasses ⟨pc, c :: cs⟩ with
      | some (ga, sa) =>
        rw [hts] at h
        have hshape := takeShape_shape gstinClasses ⟨pc, c :: cs⟩ ga sa gstinClasses_alnum
          (by rw [hts])
        replace h : g ∈ (if sa.rest.length < cs.length + 1 then
            ga :: findAllAux (fun s => takeShape gstinClasses s) n sa.prev sa.rest
          else ga :: findAllAux (fun s => takeShape gstinClasses s) n (some c) cs) := h
        by_cases hlt : sa.rest.length < cs.length + 1
        · rw [if_pos hlt] at h
          rcases List.mem_cons.mp h with h1 | h2
          · subst h1; exact hshape
          · exact ih _ _ _ h2
        · rw [if_neg hlt] at h
          rcases List.mem_cons.mp h with h1 | h2
          · subst h1; exact hshape
          · exact ih _ _ _ h2
      | none =>
        rw [hts] at h
        exact ih _ _ _ h

theorem isAlnumUp_not_space (c : Char) (h : isAlnumUp c = true) : isPySpace c = false := by
  cases hs : isPySpace c
  · rfl
  · exfalso
    unfold isPySpace at hs
    rcases (by simpa using hs :
        ((((c = ' ' ∨ c = '\t') ∨ c = '\n') ∨ c = '\x0d') ∨ c = '\x0b') ∨ c = '\x0c') with
      ((((h1|h1)|h1)|h1)|h1)|h1 <;> (subst h1; revert h; decide)

theorem dropWhile_all_false {p : Char → Bool} {l : Str}
    (h : ∀ c ∈ l, p c = false) : l.dropWhile p = l := by
  cases l with
  | nil => rfl
  | cons c cs =>
    rw [List.dropWhile_cons]
    rw [h c (by simp)]
    simp

theorem pyStrip_id {g : Str} (h : ∀ c ∈ g, isPySpace c = false) : pyStrip g = g := by
  unfold pyStrip
  rw [dropWhile_all_false h]
  rw [dropWhile_all_false (by intro c hc; exact h c (List.mem_reverse.mp hc))]
  exact List.reverse_reverse g

theorem stripOrEmpty_shape {g : Str}
    (h : g.length = 15 ∧ ∀ c ∈ g, isAlnumUp c = true) :
    SimplePDFParser.stripOrEmpty g = g := by
  unfold SimplePDFParser.stripOrEmpty
  have hne : g.isEmpty = false := by
    cases g with
    | nil => simp at h
    | cons c cs => rfl
  rw [hne]
  simp only [Bool.false_eq_true, if_false]
  exact pyStrip_id (fun c hc => isAlnumUp_not_space c (h.2 c hc))

/-! ### The context-alternation search fails without anchors -/

theorem ctxAltAt_isSome (ws : List String) (s : St)
    (h : (SimplePDFParser.ctxAltAt ws s).isSome = true) :
    (∃ w ∈ ws, ciPrefixB (s2l w) s.rest = true) ∨ ciPrefixB (s2l "GSTIN") s.rest = true := by
  induction ws with
  | nil =>
    right
    unfold SimplePDFParser.ctxAltAt at h
    match hp : plitCI "GSTIN" s with
    | [] => rw [hp] at h; simp at h
    | s1 :: t =>
      exact plitL_ne_nil_ciPrefix _ s (by rw [show plitCI "GSTIN" = plitL true (s2l "GSTIN") from rfl] at hp; rw [hp]; simp)
  | cons w rest ih =>
    unfold SimplePDFParser.ctxAltAt at h
    match hp : plitCI w s with
    | _ :: _ =>
      left
      exact ⟨w, by simp, plitL_ne_nil_ciPrefix _ s
        (by rw [show plitCI w = plitL true (s2l w) from rfl] at hp; rw [hp]; simp)⟩
    | [] =>
      rw [hp] at h
      rcases ih h with ⟨w', hw', hp'⟩ | hp'
      · exact Or.inl ⟨w', List.mem_cons_of_mem _ hw', hp'⟩
      · exact Or.inr hp'

theorem ctxGstinSearch_none (c : SimplePDFParser.GCtx) (text : Str)
    (h : ∀ w ∈ ("GSTIN" :: SimplePDFParser.ctxWords c), ciContains (s2l w) text = false) :
    SimplePDFParser.ctxGstinSearch c text = none := by
  unfold SimplePDFParser.ctxGstinSearch reSearch
  apply reSearchAux_isNone _ (("GSTIN" :: SimplePDFParser.ctxWords c).map s2l)
  · intro s hs
    rcases ctxAltAt_isSome _ s hs with ⟨w, hw, hp⟩ | hp
    · exact ⟨s2l w, List.mem_map_of_mem _ (List.mem_cons_of_mem _ hw), hp⟩
    · exact ⟨s2l "GSTIN", List.mem_map_of_mem _ (List.mem_cons_self _ _), hp⟩
  · intro v hv
    rcases List.mem_map.mp hv with ⟨w, hw, hvw⟩
    subst hvw
    exact h w hw

/-! ### Claim C5 -/

/-- **C5.** For every input text containing exactly three GSTIN-shaped
tokens and no contextual anchor labels (case-insensitively none of
Supplier/Seller/From/Buyer/Customer/Bill to/Ship to/Consignee/GST
occurs), the pattern-matching extraction `_extract_gstin` assigns the
supplier GSTIN to the 1st token, the buyer GSTIN to the 2nd and the
consignee GSTIN to the 3rd, in document order. -/
theorem gstin_positional_fallback (text : Str) (g1 g2 g3 : Str)
    (hno : noAnchors text = true)
    (hfind : findAllGSTIN text = [g1, g2, g3]) :
    SimplePDFParser.extract_gstin .supplier text = g1 ∧
    SimplePDFParser.extract_gstin .buyer text = g2 ∧
    SimplePDFParser.extract_gstin .consignee text = g3 := by
  simp only [noAnchors, List.all_cons, List.all_nil, Bool.and_eq_true,
    Bool.not_eq_true'] at hno
  obtain ⟨hSup, hSel, hFrom, hBuy, hCus, hBill, hShip, hCon, hGSTIN, hGST, -⟩ := hno
  have nSup : SimplePDFParser.labelGstin "Supplier" text = none := by
    unfold SimplePDFParser.labelGstin
    exact searchGrp_lit_none "Supplier" _ _ _ text hSup
  have nSel : SimplePDFParser.labelGstin "Seller" text = none := by
    unfold SimplePDFParser.labelGstin
    exact searchGrp_lit_none "Seller" _ _ _ text hSel
  have nFrom : SimplePDFParser.labelGstin "From" text = none := by
    unfold SimplePDFParser.labelGstin
    exact searchGrp_lit_none "From" _ _ _ text hFrom
  have nBuy : SimplePDFParser.labelGstin "Buyer" text = none := by
    unfold SimplePDFParser.labelGstin
    exact searchGrp_lit_none "Buyer" _ _ _ text hBuy
  have nCus : SimplePDFParser.labelGstin "Customer" text = none := by
    unfold SimplePDFParser.labelGstin
    exact searchGrp_lit_none "Customer" _ _ _ text hCus
  have nCon : SimplePDFParser.labelGstin "Consignee" text = none := by
    unfold SimplePDFParser.labelGstin
    exact searchGrp_lit_none "Consignee" _ _ _ text hCon
  have nGstNo : SimplePDFParser.gstNoGstin text = none := by
    unfold SimplePDFParser.gstNoGstin
    exact searchGrp_lit_none "GST" _ _ _ text hGST
  have nSimple : SimplePDFParser.gstinSimple text = none := by
    unfold SimplePDFParser.gstinSimple
    exact searchGrp_lit_none "GSTIN" _ _ _ text hGSTIN
  have nCtx : ∀ c, SimplePDFParser.ctxGstinSearch c text = none := by
    intro c
    apply ctxGstinSearch_none
    intro w hw
    match c with
    | .supplier =>
      simp only [SimplePDFParser.ctxWords, List.mem_cons, List.not_mem_nil, or_false] at hw
      rcases hw with h|h|h|h <;> (subst h; assumption)
    | .buyer =>
      simp only [SimplePDFParser.ctxWords, List.mem_cons, List.not_mem_nil, or_false] at hw
      rcases hw with h|h|h|h <;> (subst h; assumption)
    | .consignee =>
      simp only [SimplePDFParser.ctxWords, List.mem_cons, List.not_mem_nil, or_false] at hw
      rcases hw with h|h|h <;> (subst h; assumption)
  have hsh1 : g1.length = 15 ∧ ∀ c ∈ g1, isAlnumUp c = true := by
    apply findAll_gstin_shape ((text.length + 1)) none text
    show g1 ∈ findAllGSTIN text
    rw [hfind]; simp
  have hsh2 : g2.length = 15 ∧ ∀ c ∈ g2, isAlnumUp c = true := by
    apply findAll_gstin_shape ((text.length + 1)) none text
    show g2 ∈ findAllGSTIN text
    rw [hfind]; simp
  have hsh3 : g3.length = 15 ∧ ∀ c ∈ g3, isAlnumUp c = true := by
    apply findAll_gstin_shape ((text.length + 1)) none text
    show g3 ∈ findAllGSTIN text
    rw [hfind]; simp
  refine ⟨?_, ?_, ?_⟩
  · unfold SimplePDFParser.extract_gstin
    simp only [nSup, nSel, nFrom, nBuy, nCus, nCon, nGstNo, nSimple, nCtx, hfind,
      firstSome, if_true, if_false]
    norm_num [SimplePDFParser.ctxStr]
    exact stripOrEmpty_shape hsh1
  · unfold SimplePDFParser.extract_gstin
    simp only [nSup, nSel, nFrom, nBuy, nCus, nCon, nGstNo, nSimple, nCtx, hfind,
      firstSome, if_true, if_false]
    norm_num [SimplePDFParser.ctxStr]
    exact stripOrEmpty_shape hsh2
  · unfold SimplePDFParser.extract_gstin
    simp only [nSup, nSel, nFrom, nBuy, nCus, nCon, nGstNo, nSimple, nCtx, hfind,
      firstSome, if_true, if_false]
    norm_num [SimplePDFParser.ctxStr]
    exact stripOrEmpty_shape hsh3

/-- Witness for C5: the positional fallback applied at a concrete
three-token text. -/
theorem gstin_positional_fallback_witness :
    SimplePDFParser.extract_gstin .supplier
        (s2l "27ABCDE1234F1Z5 29ABCDE5678K2Z9 07ABCDE9012Q3Z1") = s2l "27ABCDE1234F1Z5" ∧
    SimplePDFParser.extract_gstin .buyer
        (s2l "27ABCDE1234F1Z5 29ABCDE5678K2Z9 07ABCDE9012Q3Z1") = s2l "29ABCDE5678K2Z9" ∧
    SimplePDFParser.extract_gstin .consignee
        (s2l "27ABCDE1234F1Z5 29ABCDE5678K2Z9 07ABCDE9012Q3Z1") = s2l "07ABCDE9012Q3Z1" :=
  gstin_positional_fallback _ _ _ _ (by decide) (by decide)

/-! ### Dictionary lemmas -/

theorem lookup_setKey_ne {j k : String} (h : j ≠ k) :
    ∀ (l : Obj) (v : JVal), lookupA (setKey l j v) k = lookupA l k := by
  intro l v
  induction l with
  | nil => simp [setKey, lookupA, h]
  | cons p t ih =>
    obtain ⟨a, w⟩ := p
    unfold setKey
    by_cases ha : a = j
    · rw [if_pos ha]
      unfold lookupA
      rw [if_neg (by rw [ha]; exact h), if_neg (by rw [ha]; exact h)]
    · rw [if_neg ha]
      unfold lookupA
      by_cases hak : a = k
      · rw [if_pos hak, if_pos hak]
      · rw [if_neg hak, if_neg hak]
        exact ih

theorem lookup_setKey_self (k : String) :
    ∀ (l : Obj) (v : JVal), lookupA (setKey l k v) k = some v := by
  intro l v
  induction l with
  | nil => simp [setKey, lookupA]
  | cons p t ih =>
    obtain ⟨a, w⟩ := p
    unfold setKey
    by_cases ha : a = k
    · rw [if_pos ha]
      unfold lookupA
      rw [if_pos ha]
    · rw [if_neg ha]
      unfold lookupA
      rw [if_neg ha]
      exact ih

theorem lookup_setOpt_ne {j k : String} (h : j ≠ k) :
    ∀ (l : Obj) (o : Option JVal), lookupA (setOpt l j o) k = lookupA l k := by
  intro l o
  match o with
  | some v => exact lookup_setKey_ne h l v
  | none => rfl

theorem knownBuyersLoop_lookup_ne (lines : List Str) (text : Str) (k : String)
    (h : "Buyer Name" ≠ k) :
    ∀ (bs : List String) (rec : Obj),
      lookupA (LLMPDFParser.knownBuyersLoop lines text rec bs) k = lookupA rec k := by
  intro bs
  induction bs with
  | nil => intro rec; rfl
  | cons b rest ih =>
    intro rec
    unfold LLMPDFParser.knownBuyersLoop
    split_ifs with h1
    · cases hln : lines.find? (fun ln => ciContains (s2l b) ln) with
      | some ln =>
        simp only [hln]
        split_ifs with h2
        · exact lookup_setKey_ne h _ _
        · rw [ih]
          exact lookup_setKey_ne h _ _
      | none =>
        simp only [hln]
        split_ifs with h2
        · rfl
        · exact ih rec
    · exact ih rec

/-! ### Claim C3 -/

/-- **C3.** Text acquisition first invokes the native-text extractor; iff
the trimmed native result is shorter than 100 characters, OCR is
consulted (the result is independent of the OCR capability otherwise),
and the kept output is whichever of the two is longer by trimmed length
(ties keep the native text); an exception in either extractor is caught
as `""`, so acquisition never raises (`extract_text` is total and the
`runExtractor` wrappers map any extractor exception to `""`). -/
theorem extract_text_spec (pn po : Except Unit String) :
    ((pyStrip (LLMPDFParser.runExtractor pn).data).length ≥ 100 →
      LLMPDFParser.extract_text pn po = LLMPDFParser.runExtractor pn ∧
      ∀ po', LLMPDFParser.extract_text pn po' = LLMPDFParser.extract_text pn po) ∧
    ((pyStrip (LLMPDFParser.runExtractor pn).data).length < 100 →
      LLMPDFParser.extract_text pn po =
        (if (pyStrip (LLMPDFParser.runExtractor po).data).length >
            (pyStrip (LLMPDFParser.runExtractor pn).data).length
         then LLMPDFParser.runExtractor po else LLMPDFParser.runExtractor pn)) ∧
    (∀ e, LLMPDFParser.runExtractor (.error e) = "") := by
  refine ⟨?_, ?_, fun _ => rfl⟩
  · intro h
    have hn : ¬ (pyStrip (LLMPDFParser.runExtractor pn).data).length < 100 := by omega
    constructor
    · unfold LLMPDFParser.extract_text
      rw [if_neg hn]
    · intro po'
      unfold LLMPDFParser.extract_text
      rw [if_neg hn, if_neg hn]
  · intro h
    unfold LLMPDFParser.extract_text
    rw [if_pos h]

/-- Witness for C3: a short native text (trimmed length < 100) with a
longer OCR text, and a failing OCR call treated as empty. -/
theorem extract_text_spec_witness :
    LLMPDFParser.extract_text (.ok "short")
        (.ok "this ocr text is much longer than the short native text and wins the comparison here") =
      "this ocr text is much longer than the short native text and wins the comparison here" ∧
    LLMPDFParser.extract_text (.ok "short") (.error ()) = "short" := by
  constructor
  · rw [(extract_text_spec (.ok "short") _).2.1 (by decide)]
    decide
  · rw [(extract_text_spec (.ok "short") (.error ())).2.1 (by decide)]
    decide

/-! ### Claim C6 -/

/-- Does construction fail with a `ValueError`? -/
def isErrE (r : Except String (String × String)) : Bool :=
  match r with
  | .error _ => true
  | .ok _ => false

/-- **C6.** Constructing the LLM strategy raises eagerly (the `Except`
result of `init`, before any call is made) exactly when the selected
provider's credential is missing (argument and environment both falsy)
or the provider name is neither `google` nor `openai` (after
lowercasing, which the constructor applies).  Configuration errors are
the only `Except`-surface of the embedding: `parse` and every extractor
below it are total functions. -/
theorem config_error_spec (api_key openai_api_key envG envO : Option String)
    (llm_provider : String) :
    isErrE (LLMPDFParser.init api_key llm_provider openai_api_key envG envO) = true ↔
      (l2s (lowerS (s2l llm_provider)) ≠ "google" ∧
       l2s (lowerS (s2l llm_provider)) ≠ "openai") ∨
      (l2s (lowerS (s2l llm_provider)) = "google" ∧
       LLMPDFParser.credTruthy api_key = false ∧ LLMPDFParser.credTruthy envG = false) ∨
      (l2s (lowerS (s2l llm_provider)) = "openai" ∧
       LLMPDFParser.credTruthy openai_api_key = false ∧
       LLMPDFParser.credTruthy envO = false) := by
  unfold LLMPDFParser.init
  by_cases hg : l2s (lowerS (s2l llm_provider)) = "google"
  · rw [if_pos hg]
    by_cases hk : LLMPDFParser.credTruthy api_key = true
    · rw [if_pos hk, if_pos hk]
      simp [isErrE, hg, hk]
    · have hk' : LLMPDFParser.credTruthy api_key = false := by
        cases h : LLMPDFParser.credTruthy api_key
        · rfl
        · exact absurd h hk
      rw [if_neg hk]
      by_cases he : LLMPDFParser.credTruthy envG = true
      · rw [if_pos he]
        simp [isErrE, hg, hk', he]
      · have he' : LLMPDFParser.credTruthy envG = false := by
          cases h : LLMPDFParser.credTruthy envG
          · rfl
          · exact absurd h he
        rw [if_neg he]
        simp [isErrE, hg, hk', he']
  · rw [if_neg hg]
    by_cases ho : l2s (lowerS (s2l llm_provider)) = "openai"
    · rw [if_pos ho]
      by_cases hk : LLMPDFParser.credTruthy openai_api_key = true
      · rw [if_pos hk, if_pos hk]
        simp [isErrE, hg, ho, hk]
      · have hk' : LLMPDFParser.credTruthy openai_api_key = false := by
          cases h : LLMPDFParser.credTruthy openai_api_key
          · rfl
          · exact absurd h hk
        rw [if_neg hk]
        by_cases he : LLMPDFParser.credTruthy envO = true
        · rw [if_pos he]
          simp [isErrE, hg, ho, hk', he]
        · have he' : LLMPDFParser.credTruthy envO = false := by
            cases h : LLMPDFParser.credTruthy envO
            · rfl
            · exact absurd h he
          rw [if_neg he]
          simp [isErrE, hg, ho, hk', he']
    · rw [if_neg ho]
      simp [isErrE, hg, ho]

/-- Witness for C6: an unsupported provider fails, a missing Google key
fails, a supplied key succeeds. -/
theorem config_error_spec_witness :
    isErrE (LLMPDFParser.init none "azure" none none none) = true ∧
    isErrE (LLMPDFParser.init none "google" none none none) = true ∧
    isErrE (LLMPDFParser.init (some "k") "google" none none none) = false := by
  refine ⟨?_, ?_, ?_⟩
  · exact (config_error_spec none none none none "azure").mpr (by decide)
  · exact (config_error_spec none none none none "google").mpr (by decide)
  · cases h : isErrE (LLMPDFParser.init (some "k") "google" none none none)
    · rfl
    · exact absurd ((config_error_spec (some "k") none none none "google").mp h) (by decide)

/-! ### Claim C2 -/

/-- The fallback extractor's remark is fixed at construction and never
reassigned. -/
theorem basic_info_remarks (serial provider : String) (text : Str) :
    lookupA (LLMPDFParser.extract_basic_info serial provider text) "Additional Remarks" =
      some (.jstr ("Extracted with fallback method due to " ++ pyCapitalize provider ++
        " API failure")) := by
  unfold LLMPDFParser.extract_basic_info
  simp only
    [lookup_setOpt_ne (show ("Total Invoice Value" : String) ≠ "Additional Remarks" by decide),
     lookup_setOpt_ne (show ("Supplier Address" : String) ≠ "Additional Remarks" by decide)]
  split_ifs <;>
    simp only
      [lookup_setKey_ne (show ("Supplier GSTIN" : String) ≠ "Additional Remarks" by decide),
       lookup_setKey_ne (show ("Buyer GSTIN" : String) ≠ "Additional Remarks" by decide),
       lookup_setOpt_ne (show ("Buyer Name" : String) ≠ "Additional Remarks" by decide),
       knownBuyersLoop_lookup_ne (splitNl text) text "Additional Remarks" (by decide),
       lookup_setOpt_ne (show ("Supplier Name" : String) ≠ "Additional Remarks" by decide),
       lookup_setOpt_ne (show ("Invoice/Document Date" : String) ≠ "Additional Remarks" by decide),
       lookup_setOpt_ne (show ("Invoice/Document Number" : String) ≠ "Additional Remarks" by decide),
       lookup_setKey_ne (show ("Document Type" : String) ≠ "Additional Remarks" by decide)] <;>
    rfl

/-- **C2.** When the LLM strategy returns any of its error kinds (all of
which surface as a tagged `error` entry — transport failure, non-200
response, and malformed/unparseable JSON all produce one), `parse` does
not raise: it returns the pattern-matching fallback extraction of the
text together with an empty item list, and the returned record's remarks
field is `"Extracted with fallback method due to <Provider> API
failure"`. -/
theorem llm_fallback_spec (serial provider : String) (text : Str) (resp : Obj)
    (ht : text ≠ []) (he : (lookupA resp "error").isSome = true) :
    LLMPDFParser.parse serial provider text resp =
      (LLMPDFParser.extract_basic_info serial provider text, []) ∧
    lookupA (LLMPDFParser.extract_basic_info serial provider text) "Additional Remarks" =
      some (.jstr ("Extracted with fallback method due to " ++ pyCapitalize provider ++
        " API failure")) := by
  constructor
  · unfold LLMPDFParser.parse
    have hemp : text.isEmpty = false := by
      cases text
      · exact absurd rfl ht
      · rfl
    rw [hemp]
    simp [he]
  · exact basic_info_remarks serial provider text

/-- Witness for C2: a transport-failure error dict on a one-line invoice
text; the fallback output is populated (the invoice number is extracted)
rather than all-empty. -/
theorem llm_fallback_spec_witness :
    LLMPDFParser.parse "S" "google" (s2l "Invoice No: INV-001")
        [("error", .jstr "API request failed: connection refused")] =
      (LLMPDFParser.extract_basic_info "S" "google" (s2l "Invoice No: INV-001"), []) ∧
    lookupA (LLMPDFParser.extract_basic_info "S" "google" (s2l "Invoice No: INV-001"))
        "Additional Remarks" =
      some (.jstr "Extracted with fallback method due to Google API failure") ∧
    lookupA (LLMPDFParser.extract_basic_info "S" "google" (s2l "Invoice No: INV-001"))
        "Invoice/Document Number" = some (.jstr "INV-001") := by
  have h := llm_fallback_spec "S" "google" (s2l "Invoice No: INV-001")
    [("error", .jstr "API request failed: connection refused")] (by decide) (by decide)
  exact ⟨h.1, h.2, rfl⟩

/-! ### Claim C1: schema-completeness of normalization -/

theorem keysOf_setKey_mem {l : Obj} {k : String} (h : k ∈ keysOf l) (v : JVal) :
    keysOf (setKey l k v) = keysOf l := by
  induction l with
  | nil => simp [keysOf] at h
  | cons p t ih =>
    obtain ⟨a, w⟩ := p
    unfold setKey
    by_cases ha : a = k
    · rw [if_pos ha]; rfl
    · rw [if_neg ha]
      have hmem : k ∈ keysOf t := by
        rcases (List.mem_cons.mp h) with h1 | h1
        · exact absurd h1.symm ha
        · exact h1
      show a :: keysOf (setKey t k v) = a :: keysOf t
      rw [ih hmem]

theorem coerce_isNum {v : JVal} (h : truthy v = true ∨ v.isNum = true) :
    (coerceNumeric v).isNum = true := by
  match v with
  | .jnull => rcases h with h | h <;> simp [truthy, JVal.isNum] at h
  | .jbool b =>
    rcases h with h | h
    · unfold coerceNumeric
      rw [show (truthy (.jbool b) && neqEmptyStr (.jbool b)) = true by
        rw [h]; rfl]
      rfl
    · simp [JVal.isNum] at h
  | .jint n =>
    rcases h with h | h
    · unfold coerceNumeric
      rw [show (truthy (.jint n) && neqEmptyStr (.jint n)) = true by rw [h]; rfl]
      rfl
    · simp [JVal.isNum] at h
  | .jnum f =>
    unfold coerceNumeric
    by_cases hb : (truthy (JVal.jnum f) && neqEmptyStr (JVal.jnum f)) = true
    · rw [if_pos hb]; rfl
    · rw [if_neg hb]; rfl
  | .jstr s =>
    rcases h with h | h
    · have hs : s ≠ "" := by
        intro he
        subst he
        simp [truthy] at h
      unfold coerceNumeric
      rw [show (truthy (.jstr s) && neqEmptyStr (.jstr s)) = true by
        simp [truthy, neqEmptyStr, hs]]
      simp only [if_true]
      cases hpf : pyFloat (stripCur s) with
      | some f => simp [hpf, JVal.isNum]
      | none => simp [hpf, JVal.isNum]
    · simp [JVal.isNum] at h
  | .jarr xs =>
    rcases h with h | h
    · unfold coerceNumeric
      rw [show (truthy (.jarr xs) && neqEmptyStr (.jarr xs)) = true by rw [h]; rfl]
      rfl
    · simp [JVal.isNum] at h
  | .jobj xs =>
    rcases h with h | h
    · unfold coerceNumeric
      rw [show (truthy (.jobj xs) && neqEmptyStr (.jobj xs)) = true by rw [h]; rfl]
      rfl
    · simp [JVal.isNum] at h

theorem setKey_good {l : Obj} {nf : String} {v : JVal}
    (hnf : nf ∈ LLMPDFParser.fieldMapping.map Prod.snd)
    (hstr : nf ≠ "Total Invoice Value" → v.isStr = true)
    (htv : nf = "Total Invoice Value" → truthy v = true ∨ v.isNum = true)
    (hg : goodRec l) : goodRec (setKey l nf v) := by
  obtain ⟨hk, hs, hn⟩ := hg
  have hnfc : nf ∈ canonKeys := by fin_cases hnf <;> decide
  refine ⟨?_, ?_, ?_⟩
  · rw [keysOf_setKey_mem (by rw [hk]; exact hnfc)]
    exact hk
  · intro k hkk
    by_cases he : nf = k
    · subst he
      refine ⟨v, lookup_setKey_self _ _ _, ?_⟩
      apply hstr
      intro heq
      rw [heq] at hkk
      exact absurd hkk (by decide)
    · obtain ⟨w, hw, hws⟩ := hs k hkk
      exact ⟨w, by rw [lookup_setKey_ne he]; exact hw, hws⟩
  · intro k hkk
    by_cases he : nf = k
    · subst he
      refine ⟨v, lookup_setKey_self _ _ _, ?_⟩
      apply htv
      fin_cases hnf <;> first | rfl | (exfalso; revert hkk; decide)
    · obtain ⟨w, hw, hws⟩ := hn k hkk
      exact ⟨w, by rw [lookup_setKey_ne he]; exact hw, hws⟩

theorem updKeys_good : ∀ (ops : List (String × JVal)) (l : Obj),
    (∀ p ∈ ops, p.1 ∈ LLMPDFParser.fieldMapping.map Prod.snd ∧
      (p.1 ≠ "Total Invoice Value" → p.2.isStr = true) ∧
      (p.1 = "Total Invoice Value" → truthy p.2 = true ∨ p.2.isNum = true)) →
    goodRec l → goodRec (updKeys l ops) := by
  intro ops
  induction ops with
  | nil => intro l _ hg; exact hg
  | cons p rest ih =>
    intro l hops hg
    have hp := hops p (by simp)
    show goodRec (updKeys (setKey l p.1 p.2) rest)
    exact ih _ (fun q hq => hops q (List.mem_cons_of_mem _ hq))
      (setKey_good hp.1 hp.2.1 hp.2.2 hg)

theorem coerceKey_good {l : Obj} {j : String} (hj : j ∈ LLMPDFParser.numericKeys)
    (hg : goodRec l) : goodRec (LLMPDFParser.coerceKey l j) := by
  obtain ⟨hk, hs, hn⟩ := hg
  obtain ⟨w, hw, hcoer⟩ := hn j hj
  have hjc : j ∈ canonKeys := by fin_cases hj <;> decide
  simp only [LLMPDFParser.coerceKey, hw, Option.getD_some]
  refine ⟨?_, ?_, ?_⟩
  · rw [keysOf_setKey_mem (by rw [hk]; exact hjc)]
    exact hk
  · intro k hkk
    have he : j ≠ k := by
      intro heq
      rw [heq] at hj
      fin_cases hkk <;> revert hj <;> decide
    obtain ⟨u, hu, hus⟩ := hs k hkk
    exact ⟨u, by rw [lookup_setKey_ne he]; exact hu, hus⟩
  · intro k hkk
    by_cases he : j = k
    · subst he
      exact ⟨coerceNumeric w, lookup_setKey_self _ _ _, Or.inr (coerce_isNum hcoer)⟩
    · obtain ⟨u, hu, hus⟩ := hn k hkk
      exact ⟨u, by rw [lookup_setKey_ne he]; exact hu, hus⟩

theorem foldlCoerce_good : ∀ (ks : List String) (l : Obj),
    (∀ k ∈ ks, k ∈ LLMPDFParser.numericKeys) → goodRec l →
    goodRec (ks.foldl LLMPDFParser.coerceKey l) := by
  intro ks
  induction ks with
  | nil => intro l _ hg; exact hg
  | cons j rest ih =>
    intro l hks hg
    exact ih _ (fun k hk => hks k (List.mem_cons_of_mem _ hk))
      (coerceKey_good (hks j (by simp)) hg)

theorem foldlCoerce_lookup_ne : ∀ (ks : List String) (l : Obj) (k : String),
    k ∉ ks → lookupA (ks.foldl LLMPDFParser.coerceKey l) k = lookupA l k := by
  intro ks
  induction ks with
  | nil => intro l k _; rfl
  | cons j rest ih =>
    intro l k hk
    have hjk : j ≠ k := by
      intro heq
      exact hk (by rw [heq] at *; simp)
    show lookupA (rest.foldl LLMPDFParser.coerceKey (LLMPDFParser.coerceKey l j)) k = lookupA l k
    rw [ih _ _ (fun h => hk (List.mem_cons_of_mem _ h))]
    unfold LLMPDFParser.coerceKey
    exact lookup_setKey_ne hjk _ _

theorem foldlCoerce_isNum : ∀ (ks : List String) (l : Obj), ks.Nodup →
    (∀ k ∈ ks, k ∈ LLMPDFParser.numericKeys) → goodRec l →
    ∀ k ∈ ks, ∃ v, lookupA (ks.foldl LLMPDFParser.coerceKey l) k = some v ∧
      v.isNum = true := by
  intro ks
  induction ks with
  | nil => intro l _ _ _ k hk; simp at hk
  | cons j rest ih =>
    intro l hnd hks hg k hk
    rcases List.mem_cons.mp hk with h1 | h1
    · subst h1
      have hnr : k ∉ rest := (List.nodup_cons.mp hnd).1
      show ∃ v, lookupA (rest.foldl LLMPDFParser.coerceKey (LLMPDFParser.coerceKey l k)) k =
        some v ∧ v.isNum = true
      rw [foldlCoerce_lookup_ne rest _ k hnr]
      obtain ⟨w, hw, hcoer⟩ := hg.2.2 k (hks k (by simp))
      refine ⟨coerceNumeric w, ?_, coerce_isNum hcoer⟩
      simp only [LLMPDFParser.coerceKey, hw, Option.getD_some]
      exact lookup_setKey_self _ _ _
    · exact ih _ (List.nodup_cons.mp hnd).2 (fun q hq => hks q (List.mem_cons_of_mem _ hq))
        (coerceKey_good (hks j (by simp)) hg) k h1

theorem good_defaults (serial : String) : goodRec (LLMPDFParser.canonicalDefaults serial) := by
  refine ⟨rfl, ?_, ?_⟩
  · intro k hk
    fin_cases hk <;> exact ⟨_, rfl, rfl⟩
  · intro k hk
    fin_cases hk <;> exact ⟨_, rfl, Or.inr rfl⟩

theorem allNum_defaults (serial : String) :
    ∀ k ∈ LLMPDFParser.numericKeys, ∃ v,
      lookupA (LLMPDFParser.canonicalDefaults serial) k = some v ∧ v.isNum = true := by
  intro k hk
  fin_cases hk <;> exact ⟨_, rfl, rfl⟩

theorem remark_final {l : Obj} (msg : String)
    (hk : keysOf l = canonKeys)
    (hs : ∀ k ∈ stringKeys, ∃ v, lookupA l k = some v ∧ v.isStr = true)
    (hn : ∀ k ∈ LLMPDFParser.numericKeys, ∃ v, lookupA l k = some v ∧ v.isNum = true) :
    keysOf (setKey l "Additional Remarks" (.jstr msg)) = canonKeys ∧
    (∀ k ∈ stringKeys, ∃ v,
      lookupA (setKey l "Additional Remarks" (.jstr msg)) k = some v ∧ v.isStr = true) ∧
    (∀ k ∈ LLMPDFParser.numericKeys, ∃ v,
      lookupA (setKey l "Additional Remarks" (.jstr msg)) k = some v ∧ v.isNum = true) := by
  refine ⟨?_, ?_, ?_⟩
  · rw [keysOf_setKey_mem (by rw [hk]; decide)]
    exact hk
  · intro k hkk
    by_cases he : ("Additional Remarks" : String) = k
    · subst he
      exact ⟨_, lookup_setKey_self _ _ _, rfl⟩
    · obtain ⟨w, hw, hws⟩ := hs k hkk
      exact ⟨w, by rw [lookup_setKey_ne he]; exact hw, hws⟩
  · intro k hkk
    have he : ("Additional Remarks" : String) ≠ k := by
      intro heq
      rw [← heq] at hkk
      exact absurd hkk (by decide)
    obtain ⟨w, hw, hws⟩ := hn k hkk
    exact ⟨w, by rw [lookup_setKey_ne he]; exact hw, hws⟩

/-- The `.ok` branch of `_normalize_invoice_data`, for an effective
overlay object whose values satisfy the raw-value conditions. -/
theorem normalize_ok_branch (serial msg : String) (o : List (String × JVal))
    (hvals : ∀ lf nf, (lf, nf) ∈ LLMPDFParser.fieldMapping → ∀ v, lookupA o lf = some v →
      (nf ≠ "Total Invoice Value" → v.isStr = true) ∧
      (nf = "Total Invoice Value" → truthy v = true ∨ v.isNum = true)) :
    keysOf (setKey (LLMPDFParser.numericKeys.foldl LLMPDFParser.coerceKey
        (updKeys (LLMPDFParser.canonicalDefaults serial)
          (LLMPDFParser.fieldMapping.filterMap
            (fun p => (lookupA o p.1).map (fun v => (p.2, v))))))
        "Additional Remarks" (.jstr msg)) = canonKeys ∧
    (∀ k ∈ stringKeys, ∃ v,
      lookupA (setKey (LLMPDFParser.numericKeys.foldl LLMPDFParser.coerceKey
        (updKeys (LLMPDFParser.canonicalDefaults serial)
          (LLMPDFParser.fieldMapping.filterMap
            (fun p => (lookupA o p.1).map (fun v => (p.2, v))))))
        "Additional Remarks" (.jstr msg)) k = some v ∧ v.isStr = true) ∧
    (∀ k ∈ LLMPDFParser.numericKeys, ∃ v,
      lookupA (setKey (LLMPDFParser.numericKeys.foldl LLMPDFParser.coerceKey
        (updKeys (LLMPDFParser.canonicalDefaults serial)
          (LLMPDFParser.fieldMapping.filterMap
            (fun p => (lookupA o p.1).map (fun v => (p.2, v))))))
        "Additional Remarks" (.jstr msg)) k = some v ∧ v.isNum = true) := by
  have hopsList : ∀ p ∈ (LLMPDFParser.fieldMapping.filterMap
      (fun q => (lookupA o q.1).map (fun v => (q.2, v)))),
      p.1 ∈ LLMPDFParser.fieldMapping.map Prod.snd ∧
      (p.1 ≠ "Total Invoice Value" → p.2.isStr = true) ∧
      (p.1 = "Total Invoice Value" → truthy p.2 = true ∨ p.2.isNum = true) := by
    intro p hp
    obtain ⟨q, hq, hfq⟩ := List.mem_filterMap.mp hp
    match hval : lookupA o q.1 with
    | none => rw [hval] at hfq; simp at hfq
    | some v =>
      rw [hval] at hfq
      simp at hfq
      have hv := hvals q.1 q.2 (by rw [show (q.1, q.2) = q from rfl]; exact hq) v hval
      refine ⟨?_, ?_, ?_⟩
      · rw [← hfq]
        exact List.mem_map_of_mem _ hq
      · intro hne
        rw [← hfq] at hne ⊢
        exact hv.1 hne
      · intro heq
        rw [← hfq] at heq ⊢
        exact hv.2 heq
  have g1 := updKeys_good _ _ hopsList (good_defaults serial)
  have g2 := foldlCoerce_good LLMPDFParser.numericKeys _ (fun k hk => hk) g1
  have nums := foldlCoerce_isNum LLMPDFParser.numericKeys _ (by decide) (fun k hk => hk) g1
  exact remark_final msg g2.1 g2.2.1 nums

/-- **C1 (counterexample).** The claim as stated fails on the code in two
ways: a falsy raw `Total Invoice Value` (the empty string) is skipped by
the coercion loop and survives as a string in a designated numeric
field, and the no-text case of `parse` returns a record with only four
of the canonical fields. -/
theorem normalize_schema_counterexample :
    lookupA (LLMPDFParser.normalize_invoice_data "S" "google"
        [("invoice_data", .jobj [("Total Invoice Value", .jstr "")])])
      "Total Invoice Value" = some (.jstr "") ∧
    (JVal.jstr "").isNum = false ∧
    LLMPDFParser.parse "S" "google" []
        [("invoice_data", .jobj [("Total Invoice Value", .jstr "")])] =
      (LLMPDFParser.noTextRecord "S", []) ∧
    keysOf (LLMPDFParser.noTextRecord "S") =
      ["Serial Number", "Document Type", "Invoice/Document Number", "Additional Remarks"] :=
  ⟨rfl, rfl, rfl, rfl⟩

/-- **C1 (amended).** For every raw extraction result reaching
`_normalize_invoice_data` (LLM error results included), the returned
record contains every canonical §3 field; the designated numeric fields
hold floats (`0.0` when missing or uncoercible) provided any raw
`Total Invoice Value` overlay is truthy or already a number (a falsy
non-number such as `""` or `null` is left in place uncoerced), and the
string fields hold strings provided the raw values overlaying the mapped
string fields are strings (a raw JSON number is copied as-is); the
no-text case of `parse` returns the minimal four-field record instead of
the fully-shaped schema. -/
theorem normalize_schema_amended (serial provider : String) (resp : Obj)
    (hstr : rawStringsOk resp) (htv : rawTIVOk resp) :
    keysOf (LLMPDFParser.normalize_invoice_data serial provider resp) = canonKeys ∧
    (∀ k ∈ stringKeys, ∃ v,
      lookupA (LLMPDFParser.normalize_invoice_data serial provider resp) k = some v ∧
      v.isStr = true) ∧
    (∀ k ∈ LLMPDFParser.numericKeys, ∃ v,
      lookupA (LLMPDFParser.normalize_invoice_data serial provider resp) k = some v ∧
      v.isNum = true) ∧
    LLMPDFParser.parse serial provider [] resp = (LLMPDFParser.noTextRecord serial, []) := by
  have base := good_defaults serial
  match herr : lookupA resp "error" with
  | some e =>
    have h := remark_final ("Error in LLM extraction: " ++ pyStr e)
      base.1 base.2.1 (allNum_defaults serial)
    simp only [LLMPDFParser.normalize_invoice_data, herr]
    exact ⟨h.1, h.2.1, h.2.2, rfl⟩
  | none =>
    match hid : lookupA resp "invoice_data" with
    | none =>
      simp only [LLMPDFParser.normalize_invoice_data, herr, hid, Option.getD_none,
        LLMPDFParser.overlayRes]
      have h := normalize_ok_branch serial
        ("Extracted with " ++ pyCapitalize provider ++ " LLM") []
        (by intro lf nf _ v hv; simp [lookupA] at hv)
      exact ⟨h.1, h.2.1, h.2.2, rfl⟩
    | some idat =>
      match idat with
      | .jobj o =>
        simp only [LLMPDFParser.normalize_invoice_data, herr, hid, Option.getD_some,
          LLMPDFParser.overlayRes]
        have h := normalize_ok_branch serial
          ("Extracted with " ++ pyCapitalize provider ++ " LLM") o
          (by
            intro lf nf hmem v hv
            constructor
            · intro hne
              exact hstr o hid lf nf hmem hne v hv
            · intro heq
              have hlf : lf = "Total Invoice Value" := by
                revert heq
                fin_cases hmem <;> (intro heq; first | rfl | (exfalso; revert heq; decide))
              rw [hlf] at hv
              exact htv o hid v hv)
        exact ⟨h.1, h.2.1, h.2.2, rfl⟩
      | .jstr s =>
        simp only [LLMPDFParser.normalize_invoice_data, herr, hid, Option.getD_some,
          LLMPDFParser.overlayRes]
        by_cases hc : (LLMPDFParser.fieldMapping.any
            (fun p => containsS (s2l p.1) (s2l s))) = true
        · rw [if_pos hc]
          have h := remark_final LLMPDFParser.normalizeErrMsg
            base.1 base.2.1 (allNum_defaults serial)
          exact ⟨h.1, h.2.1, h.2.2, rfl⟩
        · rw [if_neg hc]
          have h := normalize_ok_branch serial
            ("Extracted with " ++ pyCapitalize provider ++ " LLM") []
            (by intro lf nf _ v hv; simp [lookupA] at hv)
          exact ⟨h.1, h.2.1, h.2.2, rfl⟩
      | .jarr xs =>
        simp only [LLMPDFParser.normalize_invoice_data, herr, hid, Option.getD_some,
          LLMPDFParser.overlayRes]
        by_cases hc : (LLMPDFParser.fieldMapping.any (fun p => xs.any (fun v =>
            match v with
            | .jstr t => t == p.1
            | _ => false))) = true
        · rw [if_pos hc]
          have h := remark_final LLMPDFParser.normalizeErrMsg
            base.1 base.2.1 (allNum_defaults serial)
          exact ⟨h.1, h.2.1, h.2.2, rfl⟩
        · rw [if_neg hc]
          have h := normalize_ok_branch serial
            ("Extracted with " ++ pyCapitalize provider ++ " LLM") []
            (by intro lf nf _ v hv; simp [lookupA] at hv)
          exact ⟨h.1, h.2.1, h.2.2, rfl⟩
      | .jnull =>
        simp only [LLMPDFParser.normalize_invoice_data, herr, hid, Option.getD_some,
          LLMPDFParser.overlayRes]
        have h := remark_final LLMPDFParser.normalizeErrMsg
          base.1 base.2.1 (allNum_defaults serial)
        exact ⟨h.1, h.2.1, h.2.2, rfl⟩
      | .jbool b =>
        simp only [LLMPDFParser.normalize_invoice_data, herr, hid, Option.getD_some,
          LLMPDFParser.overlayRes]
        have h := remark_final LLMPDFParser.normalizeErrMsg
          base.1 base.2.1 (allNum_defaults serial)
        exact ⟨h.1, h.2.1, h.2.2, rfl⟩
      | .jint n =>
        simp only [LLMPDFParser.normalize_invoice_data, herr, hid, Option.getD_some,
          LLMPDFParser.overlayRes]
        have h := remark_final LLMPDFParser.normalizeErrMsg
          base.1 base.2.1 (allNum_defaults serial)
        exact ⟨h.1, h.2.1, h.2.2, rfl⟩
      | .jnum f =>
        simp only [LLMPDFParser.normalize_invoice_data, herr, hid, Option.getD_some,
          LLMPDFParser.overlayRes]
        have h := remark_final LLMPDFParser.normalizeErrMsg
          base.1 base.2.1 (allNum_defaults serial)
        exact ⟨h.1, h.2.1, h.2.2, rfl⟩

/-- Witness for C1 (amended): a well-typed raw response — the invoice
number a string, the total a truthy currency string. -/
theorem normalize_schema_amended_witness :
    keysOf (LLMPDFParser.normalize_invoice_data "S" "google"
        [("invoice_data", .jobj [("Invoice Number", .jstr "INV-9"),
                                 ("Total Invoice Value", .jstr "₹1,234.50")])]) = canonKeys ∧
    lookupA (LLMPDFParser.normalize_invoice_data "S" "google"
        [("invoice_data", .jobj [("Invoice Number", .jstr "INV-9"),
                                 ("Total Invoice Value", .jstr "₹1,234.50")])])
      "Total Invoice Value" = some (.jnum ⟨123450, 100⟩) := by
  have h := normalize_schema_amended "S" "google"
    [("invoice_data", .jobj [("Invoice Number", .jstr "INV-9"),
                             ("Total Invoice Value", .jstr "₹1,234.50")])]
    (by
      intro o ho lf nf hmem hne v hv
      have ho' : o = [("Invoice Number", JVal.jstr "INV-9"),
          ("Total Invoice Value", JVal.jstr "₹1,234.50")] := by
        have : some (JVal.jobj [("Invoice Number", JVal.jstr "INV-9"),
            ("Total Invoice Value", JVal.jstr "₹1,234.50")]) = some (JVal.jobj o) := ho
        cases this
        rfl
      subst ho'
      revert hv
      fin_cases hmem <;> (intro hv; first | (cases hv; rfl) | cases hv))
    (by
      intro o ho v hv
      have ho' : o = [("Invoice Number", JVal.jstr "INV-9"),
          ("Total Invoice Value", JVal.jstr "₹1,234.50")] := by
        have : some (JVal.jobj [("Invoice Number", JVal.jstr "INV-9"),
            ("Total Invoice Value", JVal.jstr "₹1,234.50")]) = some (JVal.jobj o) := ho
        cases this
        rfl
      subst ho'
      cases hv
      exact Or.inl rfl)
  exact ⟨h.1, rfl⟩

/-! ### Claim C10 -/

/-- **C10, counterexample.** The table line `"WIDGET EA 1234 500"` of a
well-formed item table has no quantity-with-unit token (the quantity
regex finds nothing), and the produced item indeed has Quantity `1.0` —
but its UOM is `"EA"`, not `"PCS"`: the UOM regex matches a bare unit
token independently of the quantity default, refuting the claimed
conjunction. -/
theorem line_item_uom_counterexample :
    SimplePDFParser.qtySearch (s2l "WIDGET EA 1234 500") = none ∧
    lookupA ((SimplePDFParser.extract_line_items "S" "N"
        (s2l "HSN Description Qty Rate Amount\nWIDGET EA 1234 500\nTotal: 500")).getD 0 [])
      "Quantity" = some (.jnum (Flt.ofInt 1)) ∧
    lookupA ((SimplePDFParser.extract_line_items "S" "N"
        (s2l "HSN Description Qty Rate Amount\nWIDGET EA 1234 500\nTotal: 500")).getD 0 [])
      "UOM" = some (.jstr "EA") :=
  ⟨rfl, rfl, rfl⟩

/-- **C10, amended.** In both line-item branches, a line with no
quantity-with-unit token yields Quantity `1.0` (so Quantity is at least
one whenever no explicit quantity is found); the UOM is `"PCS"` only
under the separate condition that no bare unit token occurs either (the
two defaults are decided by different regexes). -/
theorem line_item_qty_default (s inv : String) (text ln : Str) (i : ℕ)
    (h : SimplePDFParser.qtySearch ln = none) :
    lookupA (SimplePDFParser.tableItem s inv text i ln) "Quantity" =
      some (.jnum (Flt.ofInt 1)) ∧
    (SimplePDFParser.uomSearch ln = none →
      lookupA (SimplePDFParser.tableItem s inv text i ln) "UOM" = some (.jstr "PCS")) ∧
    (SimplePDFParser.altQtySearch ln = none →
      lookupA (SimplePDFParser.altItem s inv i ln) "Quantity" = some (.jnum (Flt.ofInt 1))) ∧
    (SimplePDFParser.altUomSearch ln = none →
      lookupA (SimplePDFParser.altItem s inv i ln) "UOM" = some (.jstr "PCS")) := by
  refine ⟨?_, fun hu => ?_, fun hq => ?_, fun hu2 => ?_⟩
  · simp only [SimplePDFParser.tableItem, h]
    rfl
  · simp only [SimplePDFParser.tableItem, h, hu]
    rfl
  · simp only [SimplePDFParser.altItem, hq]
    rfl
  · simp only [SimplePDFParser.altItem, hu2]
    rfl

/-- **C10, witness.** The defaults on the concrete unit-less line
`"WIDGETX 900"`. -/
theorem line_item_qty_default_witness :
    SimplePDFParser.qtySearch (s2l "WIDGETX 900") = none ∧
    lookupA (SimplePDFParser.tableItem "S" "N" [] 0 (s2l "WIDGETX 900")) "Quantity" =
      some (.jnum (Flt.ofInt 1)) :=
  ⟨rfl, (line_item_qty_default "S" "N" [] (s2l "WIDGETX 900") 0 rfl).1⟩

/-! ### Claim C8 -/

/-- **C8 (code bug).** With the buyer context and the text
`"Buyer: 27AAAAA0000A1Z5"` — a contextual anchor together with a
GSTIN-shaped token — `InvoiceParser._extract_gstin` raises
`AttributeError` instead of returning the nearest GSTIN: the interpolated
pattern is a top-level alternation, the bare word `Buyer` wins the
leftmost match, and `match.group(1).strip()` is called on `None`.  The
second conjunct shows a GSTIN token is present, and the third shows the
proximity fallback's anchor lookup is the `str.find` of the literal
pipe-joined context string, which the text does not contain, so the
minimum-distance / 500-character logic cannot run. -/
theorem gstin_proximity_bug :
    InvoiceParser.extract_gstin .buyer (s2l "Buyer: 27AAAAA0000A1Z5") =
      .error .attributeError ∧
    findAllGSTIN (s2l "Buyer: 27AAAAA0000A1Z5") = [s2l "27AAAAA0000A1Z5"] ∧
    findSub (s2l "Buyer: 27AAAAA0000A1Z5") (s2l (InvoiceParser.ictxStr .buyer)) = none :=
  ⟨rfl, rfl, rfl⟩

/-! ### Record helpers for the idempotence and back-reference claims -/

theorem scrubAt_cons (sk a : String) (w : JVal) (t : Obj) :
    scrubAt sk ((a, w) :: t) =
      (if a = sk then (a, JVal.jnull) else (a, w)) :: scrubAt sk t := rfl

theorem scrubAt_setKey_ne {k sk : String} (h : ¬ k = sk) :
    ∀ (l : Obj) (v : JVal), scrubAt sk (setKey l k v) = setKey (scrubAt sk l) k v := by
  intro l v
  induction l with
  | nil =>
    show scrubAt sk [(k, v)] = [(k, v)]
    rw [scrubAt_cons, if_neg h]
    rfl
  | cons p t ih =>
    obtain ⟨a, w⟩ := p
    by_cases ha : a = k
    · subst ha
      have e1 : setKey ((a, w) :: t) a v = (a, v) :: t := by simp [setKey]
      have e2 : ∀ hd : Obj, setKey ((a, JVal.jnull) :: hd) a v = (a, v) :: hd := by
        intro hd; simp [setKey]
      have e3 : ∀ hd : Obj, setKey ((a, w) :: hd) a v = (a, v) :: hd := by
        intro hd; simp [setKey]
      rw [e1, scrubAt_cons, scrubAt_cons]
      by_cases has : a = sk
      · exact absurd has h
      · rw [if_neg has, if_neg has, e3]
    · have e1 : setKey ((a, w) :: t) k v = (a, w) :: setKey t k v := by simp [setKey, ha]
      rw [e1, scrubAt_cons, scrubAt_cons, ih]
      by_cases has : a = sk
      · rw [if_pos has]
        have e2 : setKey ((a, JVal.jnull) :: scrubAt sk t) k v =
            (a, JVal.jnull) :: setKey (scrubAt sk t) k v := by simp [setKey, ha]
        rw [e2]
      · rw [if_neg has]
        have e2 : setKey ((a, w) :: scrubAt sk t) k v =
            (a, w) :: setKey (scrubAt sk t) k v := by simp [setKey, ha]
        rw [e2]

theorem scrubAt_setOpt_ne {k sk : String} (h : ¬ k = sk) :
    ∀ (l : Obj) (o : Option JVal), scrubAt sk (setOpt l k o) = setOpt (scrubAt sk l) k o := by
  intro l o
  cases o with
  | some v => exact scrubAt_setKey_ne h l v
  | none => rfl

theorem lookupA_scrubAt {k sk : String} (h : ¬ k = sk) :
    ∀ (l : Obj), lookupA (scrubAt sk l) k = lookupA l k := by
  intro l
  induction l with
  | nil => rfl
  | cons p t ih =>
    obtain ⟨a, w⟩ := p
    rw [scrubAt_cons]
    by_cases has : a = sk
    · rw [if_pos has]
      have hak : ¬ a = k := fun hk => h ((hk ▸ has : k = sk))
      simp [lookupA, hak, ih]
    · rw [if_neg has]
      by_cases hak : a = k
      · simp [lookupA, hak]
      · simp [lookupA, hak, ih]

theorem scrubAt_coerceKey_ne {k sk : String} (h : ¬ k = sk) (l : Obj) :
    scrubAt sk (LLMPDFParser.coerceKey l k) = LLMPDFParser.coerceKey (scrubAt sk l) k := by
  unfold LLMPDFParser.coerceKey
  rw [lookupA_scrubAt h, scrubAt_setKey_ne h]

theorem scrubAt_foldlCoerce {sk : String} : ∀ {ks : List String},
    (∀ k ∈ ks, ¬ k = sk) → ∀ (l : Obj),
      scrubAt sk (ks.foldl LLMPDFParser.coerceKey l) =
        ks.foldl LLMPDFParser.coerceKey (scrubAt sk l) := by
  intro ks
  induction ks with
  | nil => intro _ l; rfl
  | cons k rest ih =>
    intro hks l
    rw [List.foldl_cons, List.foldl_cons,
        ih (fun j hj => hks j (List.mem_cons_of_mem k hj)) _,
        scrubAt_coerceKey_ne (hks k (List.mem_cons_self k rest))]

theorem scrubAt_updKeys {sk : String} : ∀ {ops : List (String × JVal)},
    (∀ p ∈ ops, ¬ p.1 = sk) → ∀ (l : Obj),
      scrubAt sk (updKeys l ops) = updKeys (scrubAt sk l) ops := by
  intro ops
  induction ops with
  | nil => intro _ l; rfl
  | cons p rest ih =>
    intro hops l
    show scrubAt sk (updKeys (setKey l p.1 p.2) rest) =
      updKeys (setKey (scrubAt sk l) p.1 p.2) rest
    rw [ih (fun q hq => hops q (List.mem_cons_of_mem p hq)) _,
        scrubAt_setKey_ne (hops p (List.mem_cons_self p rest))]

theorem scrubAt_kbl {sk : String} (h : ¬ "Buyer Name" = sk) :
    ∀ (lines : List Str) (text : Str) (bs : List String) (rec : Obj),
      scrubAt sk (LLMPDFParser.knownBuyersLoop lines text rec bs) =
        LLMPDFParser.knownBuyersLoop lines text (scrubAt sk rec) bs := by
  intro lines text bs
  induction bs with
  | nil => intro rec; rfl
  | cons b rest ih =>
    intro rec
    unfold LLMPDFParser.knownBuyersLoop
    split_ifs with h1
    · cases hln : lines.find? (fun ln => ciContains (s2l b) ln) with
      | some ln =>
        simp only [hln]
        rw [← scrubAt_setKey_ne h rec (.jstr (l2s (pyStrip ln))), lookupA_scrubAt h]
        split_ifs with h2
        · rfl
        · exact ih _
      | none =>
        simp only [hln]
        rw [lookupA_scrubAt h]
        split_ifs with h2
        · rfl
        · exact ih rec
    · exact ih rec

/-- A key set by an overlay-operation list built from a field-translation
table is one of the table's targets. -/
theorem mem_overlay_ops {fm : List (String × String)} {o : Obj} {p : String × JVal}
    (hp : p ∈ fm.filterMap (fun q => (lookupA o q.1).map (fun v => (q.2, v)))) :
    ∃ q ∈ fm, p.1 = q.2 := by
  obtain ⟨q, hq, hfq⟩ := List.mem_filterMap.mp hp
  refine ⟨q, hq, ?_⟩
  cases hl : lookupA o q.1 with
  | none => rw [hl] at hfq; cases hfq
  | some v =>
    rw [hl] at hfq
    cases hfq
    rfl

theorem lookup_updKeys_ne {k : String} : ∀ {ops : List (String × JVal)},
    (∀ p ∈ ops, ¬ p.1 = k) → ∀ (l : Obj),
      lookupA (updKeys l ops) k = lookupA l k := by
  intro ops
  induction ops with
  | nil => intro _ l; rfl
  | cons p rest ih =>
    intro hops l
    show lookupA (updKeys (setKey l p.1 p.2) rest) k = lookupA l k
    rw [ih (fun q hq => hops q (List.mem_cons_of_mem p hq)) _,
        lookup_setKey_ne (hops p (List.mem_cons_self p rest))]

theorem map_congr_fun {α β : Type} {f g : α → β} (h : ∀ a, f a = g a) :
    ∀ l : List α, l.map f = l.map g := by
  intro l
  induction l with
  | nil => rfl
  | cons a t ih => simp only [List.map_cons, h a, ih]

/-- The serial number enters a table-branch item only in its
`Invoice Serial Number` field. -/
theorem scrub_tableItem (s1 s2 inv : String) (text : Str) (i : ℕ) (ln : Str) :
    scrubAt "Invoice Serial Number" (SimplePDFParser.tableItem s1 inv text i ln) =
      scrubAt "Invoice Serial Number" (SimplePDFParser.tableItem s2 inv text i ln) := rfl

/-- The serial number enters an alternative-branch item only in its
`Invoice Serial Number` field. -/
theorem scrub_altItem (s1 s2 inv : String) (i : ℕ) (ln : Str) :
    scrubAt "Invoice Serial Number" (SimplePDFParser.altItem s1 inv i ln) =
      scrubAt "Invoice Serial Number" (SimplePDFParser.altItem s2 inv i ln) := rfl

/-- The simple parser's line items are serial-independent modulo the
back-reference field. -/
theorem scrub_simple_items (s1 s2 inv : String) (text : Str) :
    (SimplePDFParser.extract_line_items s1 inv text).map (scrubAt "Invoice Serial Number") =
      (SimplePDFParser.extract_line_items s2 inv text).map
        (scrubAt "Invoice Serial Number") := by
  simp only [SimplePDFParser.extract_line_items]
  cases htbl : SimplePDFParser.tableSearch text with
  | none =>
    dsimp only
    simp only [List.isEmpty_nil, if_true, List.map_map]
    exact map_congr_fun
      (fun p : ℕ × Str =>
        scrub_altItem s1 s2 inv p.1 p.2) _
  | some tbl =>
    dsimp only
    cases hlns : (SimplePDFParser.tableLines tbl).enum with
    | nil =>
      simp only [List.map_nil, List.isEmpty_nil, if_true, List.map_map]
      exact map_congr_fun
        (fun p : ℕ × Str =>
          scrub_altItem s1 s2 inv p.1 p.2) _
    | cons a l =>
      simp only [List.map_cons, List.isEmpty_cons, if_false, List.map_map, Bool.false_eq_true]
      congr 1

/-- The serial number enters `_normalize_invoice_data` only through the
`Serial Number` default. -/
theorem scrub_nid (s1 s2 provider : String) (resp : Obj) :
    scrubAt "Serial Number" (LLMPDFParser.normalize_invoice_data s1 provider resp) =
      scrubAt "Serial Number" (LLMPDFParser.normalize_invoice_data s2 provider resp) := by
  have hcan : scrubAt "Serial Number" (LLMPDFParser.canonicalDefaults s1) =
      scrubAt "Serial Number" (LLMPDFParser.canonicalDefaults s2) := rfl
  have hrem : ¬ "Additional Remarks" = "Serial Number" := by decide
  unfold LLMPDFParser.normalize_invoice_data
  cases herr : lookupA resp "error" with
  | some e =>
    dsimp only
    rw [scrubAt_setKey_ne hrem, scrubAt_setKey_ne hrem, hcan]
  | none =>
    dsimp only
    cases hov : LLMPDFParser.overlayRes ((lookupA resp "invoice_data").getD (.jobj [])) with
    | error u =>
      dsimp only
      rw [scrubAt_setKey_ne hrem, scrubAt_setKey_ne hrem, hcan]
    | ok o =>
      dsimp only
      have htargets : ∀ q ∈ LLMPDFParser.fieldMapping, ¬ q.2 = "Serial Number" := by decide
      have hops : ∀ p ∈ LLMPDFParser.fieldMapping.filterMap
          (fun q => (lookupA o q.1).map (fun v => (q.2, v))), ¬ p.1 = "Serial Number" := by
        intro p hp
        obtain ⟨q, hq, hpq⟩ := mem_overlay_ops hp
        exact hpq ▸ htargets q hq
      have hnum : ∀ k ∈ LLMPDFParser.numericKeys, ¬ k = "Serial Number" := by decide
      rw [scrubAt_setKey_ne hrem, scrubAt_setKey_ne hrem,
          scrubAt_foldlCoerce hnum, scrubAt_foldlCoerce hnum,
          scrubAt_updKeys hops, scrubAt_updKeys hops, hcan]

/-- The serial number enters `_extract_basic_info_from_text` only through
the `Serial Number` default. -/
theorem scrub_ebi (s1 s2 provider : String) (text : Str) :
    scrubAt "Serial Number" (LLMPDFParser.extract_basic_info s1 provider text) =
      scrubAt "Serial Number" (LLMPDFParser.extract_basic_info s2 provider text) := by
  have hbd : scrubAt "Serial Number" (LLMPDFParser.basicDefaults s1 provider) =
      scrubAt "Serial Number" (LLMPDFParser.basicDefaults s2 provider) := rfl
  unfold LLMPDFParser.extract_basic_info
  simp only [apply_ite (scrubAt "Serial Number"),
    scrubAt_setOpt_ne (show ¬ "Total Invoice Value" = "Serial Number" by decide),
    scrubAt_setOpt_ne (show ¬ "Supplier Address" = "Serial Number" by decide),
    scrubAt_setKey_ne (show ¬ "Buyer GSTIN" = "Serial Number" by decide),
    scrubAt_setKey_ne (show ¬ "Supplier GSTIN" = "Serial Number" by decide),
    scrubAt_setOpt_ne (show ¬ "Buyer Name" = "Serial Number" by decide),
    scrubAt_kbl (show ¬ "Buyer Name" = "Serial Number" by decide),
    scrubAt_setOpt_ne (show ¬ "Supplier Name" = "Serial Number" by decide),
    scrubAt_setOpt_ne (show ¬ "Invoice/Document Date" = "Serial Number" by decide),
    scrubAt_setOpt_ne (show ¬ "Invoice/Document Number" = "Serial Number" by decide),
    scrubAt_setKey_ne (show ¬ "Document Type" = "Serial Number" by decide),
    hbd]

/-- The item overlay loop commutes with blanking a key none of its
targets touch. -/
theorem overlayItem_scrub {sk : String} (item : JVal) :
    ∀ {m : List (String × String)}, (∀ p ∈ m, ¬ p.2 = sk) →
      ∀ (acc : Obj),
        LLMPDFParser.overlayItem item (scrubAt sk acc) m =
          (LLMPDFParser.overlayItem item acc m).map (scrubAt sk) := by
  intro m
  induction m with
  | nil => intro _ acc; rfl
  | cons q rest ih =>
    intro hm acc
    obtain ⟨lf, nf⟩ := q
    unfold LLMPDFParser.overlayItem
    cases hf : LLMPDFParser.itemField item lf with
    | error u => rfl
    | ok o =>
      cases o with
      | none => exact ih (fun p hp => hm p (List.mem_cons_of_mem _ hp)) acc
      | some v =>
        dsimp only
        rw [← scrubAt_setKey_ne (hm (lf, nf) (List.mem_cons_self _ _)) acc v]
        exact ih (fun p hp => hm p (List.mem_cons_of_mem _ hp)) (setKey acc nf v)

/-- The item loop of `_normalize_line_items` is serial-independent
modulo the back-reference field, error outcomes included. -/
theorem buildItems_scrub (s1 s2 : String) (resp : Obj) :
    ∀ (xs : List JVal) (i : ℕ),
      (LLMPDFParser.buildItems s1 resp i xs).map
          (fun l => l.map (scrubAt "Invoice Serial Number")) =
        (LLMPDFParser.buildItems s2 resp i xs).map
          (fun l => l.map (scrubAt "Invoice Serial Number")) := by
  intro xs
  induction xs with
  | nil => intro i; rfl
  | cons item rest ih =>
    intro i
    unfold LLMPDFParser.buildItems
    cases hg : LLMPDFParser.getInvNum resp with
    | error u => rfl
    | ok invNum =>
      dsimp only
      have hmap : ∀ p ∈ LLMPDFParser.itemFieldMapping,
          ¬ p.2 = "Invoice Serial Number" := by decide
      have hnum : ∀ k ∈ LLMPDFParser.itemNumericKeys,
          ¬ k = "Invoice Serial Number" := by decide
      have hdef : scrubAt "Invoice Serial Number" (LLMPDFParser.itemDefaults s1 invNum i) =
          scrubAt "Invoice Serial Number" (LLMPDFParser.itemDefaults s2 invNum i) := rfl
      have h1 := overlayItem_scrub item hmap (LLMPDFParser.itemDefaults s1 invNum i)
      have h2 := overlayItem_scrub item hmap (LLMPDFParser.itemDefaults s2 invNum i)
      rw [hdef] at h1
      have hoo := h1.symm.trans h2
      cases ho1 : LLMPDFParser.overlayItem item (LLMPDFParser.itemDefaults s1 invNum i)
          LLMPDFParser.itemFieldMapping with
      | error u1 =>
        cases ho2 : LLMPDFParser.overlayItem item (LLMPDFParser.itemDefaults s2 invNum i)
            LLMPDFParser.itemFieldMapping with
        | error u2 => rfl
        | ok d2 =>
          rw [ho1, ho2] at hoo
          simp only [Except.map] at hoo
          cases hoo
      | ok d1 =>
        cases ho2 : LLMPDFParser.overlayItem item (LLMPDFParser.itemDefaults s2 invNum i)
            LLMPDFParser.itemFieldMapping with
        | error u2 =>
          rw [ho1, ho2] at hoo
          simp only [Except.map] at hoo
          cases hoo
        | ok d2 =>
          rw [ho1, ho2] at hoo
          simp only [Except.map, Except.ok.injEq] at hoo
          have hc : scrubAt "Invoice Serial Number"
              (LLMPDFParser.itemNumericKeys.foldl LLMPDFParser.coerceKey d1) =
              scrubAt "Invoice Serial Number"
                (LLMPDFParser.itemNumericKeys.foldl LLMPDFParser.coerceKey d2) := by
            rw [scrubAt_foldlCoerce hnum, scrubAt_foldlCoerce hnum, hoo]
          have hih := ih (i + 1)
          cases hb1 : LLMPDFParser.buildItems s1 resp (i + 1) rest with
          | error u3 =>
            cases hb2 : LLMPDFParser.buildItems s2 resp (i + 1) rest with
            | error u4 => rfl
            | ok l2 =>
              rw [hb1, hb2] at hih
              simp only [Except.map] at hih
              cases hih
          | ok l1 =>
            cases hb2 : LLMPDFParser.buildItems s2 resp (i + 1) rest with
            | error u4 =>
              rw [hb1, hb2] at hih
              simp only [Except.map] at hih
              cases hih
            | ok l2 =>
              rw [hb1, hb2] at hih
              simp only [Except.map, Except.ok.injEq] at hih
              dsimp only
              simp only [Except.map, Except.ok.injEq, List.map_cons]
              rw [hc, hih]

/-- `_normalize_line_items` is serial-independent modulo the
back-reference field. -/
theorem scrub_nli (s1 s2 : String) (resp : Obj) :
    (LLMPDFParser.normalize_line_items s1 resp).map (scrubAt "Invoice Serial Number") =
      (LLMPDFParser.normalize_line_items s2 resp).map (scrubAt "Invoice Serial Number") := by
  unfold LLMPDFParser.normalize_line_items
  split_ifs with h1
  · rfl
  · cases he : LLMPDFParser.enumItems ((lookupA resp "line_items").getD .jnull) with
    | error u => rfl
    | ok xs =>
      dsimp only
      have hb := buildItems_scrub s1 s2 resp xs 0
      cases hb1 : LLMPDFParser.buildItems s1 resp 0 xs with
      | error u =>
        cases hb2 : LLMPDFParser.buildItems s2 resp 0 xs with
        | error u2 => rfl
        | ok l2 =>
          rw [hb1, hb2] at hb
          simp only [Except.map] at hb
          cases hb
      | ok l1 =>
        cases hb2 : LLMPDFParser.buildItems s2 resp 0 xs with
        | error u2 =>
          rw [hb1, hb2] at hb
          simp only [Except.map] at hb
          cases hb
        | ok l2 =>
          rw [hb1, hb2] at hb
          simp only [Except.map, Except.ok.injEq] at hb
          exact hb

/-! ### Claim C7 -/

/-- **C7.** Parsing the same text twice with the same configuration (and,
for the LLM strategy, the same provider and the same LLM response held
fixed) yields identical invoice records and identical line-item lists up
to the generated serial number: blanking the `Serial Number` field of the
invoice record and the `Invoice Serial Number` back-reference of every
line item makes the two parses of both strategies equal.  The serial
number (a fresh UUID in the source) enters both parsers only as a
parameter copied into those two fields. -/
theorem parse_idempotent_mod_serial (s1 s2 provider : String) (text : Str) (resp : Obj) :
    scrubAt "Serial Number" (SimplePDFParser.parse s1 text).1 =
      scrubAt "Serial Number" (SimplePDFParser.parse s2 text).1 ∧
    (SimplePDFParser.parse s1 text).2.map (scrubAt "Invoice Serial Number") =
      (SimplePDFParser.parse s2 text).2.map (scrubAt "Invoice Serial Number") ∧
    scrubAt "Serial Number" (LLMPDFParser.parse s1 provider text resp).1 =
      scrubAt "Serial Number" (LLMPDFParser.parse s2 provider text resp).1 ∧
    (LLMPDFParser.parse s1 provider text resp).2.map (scrubAt "Invoice Serial Number") =
      (LLMPDFParser.parse s2 provider text resp).2.map
        (scrubAt "Invoice Serial Number") := by
  refine ⟨rfl, ?_, ?_, ?_⟩
  · exact scrub_simple_items s1 s2 (l2s (SimplePDFParser.extract_invoice_number text)) text
  · unfold LLMPDFParser.parse
    split_ifs with ht he
    · rfl
    · exact scrub_ebi s1 s2 provider text
    · exact scrub_nid s1 s2 provider resp
  · unfold LLMPDFParser.parse
    split_ifs with ht he
    · rfl
    · rfl
    · exact scrub_nli s1 s2 resp

/-! ### Claim C9 helpers -/

/-- Every line item of the simple parser's extractor carries the serial
number and the invoice number it was built from. -/
theorem mem_extract_line_items {s inv : String} {text : Str} {it : Obj}
    (h : it ∈ SimplePDFParser.extract_line_items s inv text) :
    lookupA it "Invoice Serial Number" = some (.jstr s) ∧
    lookupA it "Invoice Number" = some (.jstr inv) := by
  unfold SimplePDFParser.extract_line_items at h
  dsimp only at h
  split at h
  · obtain ⟨p, hp, hpe⟩ := List.mem_map.mp h
    rw [← hpe]
    exact ⟨rfl, rfl⟩
  · split at h
    · exact absurd h (List.not_mem_nil it)
    · obtain ⟨p, hp, hpe⟩ := List.mem_map.mp h
      rw [← hpe]
      exact ⟨rfl, rfl⟩

/-- A key outside the overlay targets is untouched by the item overlay
loop. -/
theorem overlayItem_lookup_ne {k : String} (item : JVal) :
    ∀ {m : List (String × String)}, (∀ p ∈ m, ¬ p.2 = k) →
      ∀ {acc d : Obj}, LLMPDFParser.overlayItem item acc m = .ok d →
        lookupA d k = lookupA acc k := by
  intro m
  induction m with
  | nil =>
    intro _ acc d h
    cases h
    rfl
  | cons q rest ih =>
    intro hm acc d h
    obtain ⟨lf, nf⟩ := q
    unfold LLMPDFParser.overlayItem at h
    cases hf : LLMPDFParser.itemField item lf with
    | error u =>
      simp only [hf] at h
      cases h
    | ok o =>
      simp only [hf] at h
      cases o with
      | none => exact ih (fun p hp => hm p (List.mem_cons_of_mem _ hp)) h
      | some v =>
        rw [ih (fun p hp => hm p (List.mem_cons_of_mem _ hp)) h,
            lookup_setKey_ne (hm (lf, nf) (List.mem_cons_self _ _))]

/-- Every item the loop of `_normalize_line_items` produces carries the
serial number and the extracted invoice number. -/
theorem buildItems_mem {serial : String} {resp : Obj} :
    ∀ {xs : List JVal} {i : ℕ} {l : List Obj},
      LLMPDFParser.buildItems serial resp i xs = .ok l →
      ∀ it ∈ l, ∃ invN, LLMPDFParser.getInvNum resp = .ok invN ∧
        lookupA it "Invoice Serial Number" = some (.jstr serial) ∧
        lookupA it "Invoice Number" = some invN := by
  intro xs
  induction xs with
  | nil =>
    intro i l h it hit
    cases h
    exact absurd hit (List.not_mem_nil it)
  | cons item rest ih =>
    intro i l h it hit
    unfold LLMPDFParser.buildItems at h
    cases hg : LLMPDFParser.getInvNum resp with
    | error u =>
      simp only [hg] at h
      cases h
    | ok invN =>
      simp only [hg] at h
      cases ho : LLMPDFParser.overlayItem item (LLMPDFParser.itemDefaults serial invN i)
          LLMPDFParser.itemFieldMapping with
      | error u =>
        simp only [ho] at h
        cases h
      | ok d1 =>
        simp only [ho] at h
        cases hb : LLMPDFParser.buildItems serial resp (i + 1) rest with
        | error u =>
          simp only [hb] at h
          cases h
        | ok others =>
          simp only [hb] at h
          cases h
          cases hit with
          | head =>
            refine ⟨invN, rfl, ?_, ?_⟩
            · rw [foldlCoerce_lookup_ne _ _ _ (by decide),
                  overlayItem_lookup_ne item (by decide) ho]
              rfl
            · rw [foldlCoerce_lookup_ne _ _ _ (by decide),
                  overlayItem_lookup_ne item (by decide) ho]
              rfl
          | tail _ hit2 =>
            obtain ⟨invN2, hg2, hA, hB⟩ := ih hb it hit2
            rw [hg] at hg2
            exact ⟨invN2, hg2, hA, hB⟩

/-- The sequential-overwrite value of an overlay built from a
field-translation table at one canonical key. -/
theorem lookup_updKeys_fm {k : String} :
    ∀ (fm : List (String × String)) (o : Obj) (l : Obj),
      lookupA (updKeys l (fm.filterMap
          (fun q => (lookupA o q.1).map (fun v => (q.2, v))))) k =
        fm.foldl (fun acc q =>
          if q.2 = k then
            (match lookupA o q.1 with
             | some v => some v
             | none => acc)
          else acc) (lookupA l k) := by
  intro fm
  induction fm with
  | nil => intro o l; rfl
  | cons q rest ih =>
    intro o l
    cases hq : lookupA o q.1 with
    | none =>
      simp only [List.filterMap_cons, List.foldl_cons, hq, Option.map_none']
      rw [ih]
      by_cases hk : q.2 = k
      · rw [if_pos hk]
      · rw [if_neg hk]
    | some v =>
      simp only [List.filterMap_cons, List.foldl_cons, hq, Option.map_some']
      show lookupA (updKeys (setKey l q.2 v)
          (List.filterMap (fun q => Option.map (fun v => (q.2, v)) (lookupA o q.1)) rest)) k = _
      rw [ih]
      by_cases hk : q.2 = k
      · rw [if_pos hk, hk, lookup_setKey_self]
      · rw [if_neg hk, lookup_setKey_ne hk]

/-- The serial number written into the normalized invoice record. -/
theorem nid_serial_lookup (serial provider : String) (resp : Obj) :
    lookupA (LLMPDFParser.normalize_invoice_data serial provider resp) "Serial Number" =
      some (.jstr serial) := by
  have hrem : ¬ "Additional Remarks" = "Serial Number" := by decide
  unfold LLMPDFParser.normalize_invoice_data
  cases herr : lookupA resp "error" with
  | some e =>
    dsimp only
    rw [lookup_setKey_ne hrem]
    rfl
  | none =>
    dsimp only
    cases hov : LLMPDFParser.overlayRes ((lookupA resp "invoice_data").getD (.jobj [])) with
    | error u =>
      dsimp only
      rw [lookup_setKey_ne hrem]
      rfl
    | ok o =>
      dsimp only
      have htargets : ∀ q ∈ LLMPDFParser.fieldMapping, ¬ q.2 = "Serial Number" := by decide
      have hops : ∀ p ∈ LLMPDFParser.fieldMapping.filterMap
          (fun q => (lookupA o q.1).map (fun v => (q.2, v))), ¬ p.1 = "Serial Number" := by
        intro p hp
        obtain ⟨q, hq, hpq⟩ := mem_overlay_ops hp
        exact hpq ▸ htargets q hq
      rw [lookup_setKey_ne hrem, foldlCoerce_lookup_ne _ _ _ (by decide),
          lookup_updKeys_ne hops]
      rfl

/-- The normalized invoice record's document number equals the value the
item loop denormalizes (`invoice_data.get("Invoice Number", "")`). -/
theorem nid_invnum (serial provider : String) (resp : Obj) (invN : JVal)
    (herr : lookupA resp "error" = none)
    (hg : LLMPDFParser.getInvNum resp = .ok invN) :
    lookupA (LLMPDFParser.normalize_invoice_data serial provider resp)
      "Invoice/Document Number" = some invN := by
  have hne : ¬ "Additional Remarks" = "Invoice/Document Number" := by decide
  unfold LLMPDFParser.normalize_invoice_data
  rw [herr]
  dsimp only
  unfold LLMPDFParser.getInvNum at hg
  cases hid : lookupA resp "invoice_data" with
  | none =>
    rw [hid] at hg
    cases hg
    dsimp only [Option.getD, LLMPDFParser.overlayRes]
    rw [lookup_setKey_ne hne, foldlCoerce_lookup_ne _ _ _ (by decide), lookup_updKeys_fm]
    rfl
  | some jv =>
    rw [hid] at hg
    cases jv with
    | jobj o =>
      dsimp only at hg
      injection hg with hg2
      dsimp only [Option.getD, LLMPDFParser.overlayRes]
      rw [lookup_setKey_ne hne, foldlCoerce_lookup_ne _ _ _ (by decide), lookup_updKeys_fm]
      show (match lookupA o "Invoice Number" with
            | some v => some v
            | none => some (JVal.jstr "")) = some invN
      rw [← hg2]
      cases lookupA o "Invoice Number" with
      | none => rfl
      | some v => rfl
    | jnull => dsimp only at hg; cases hg
    | jbool b => dsimp only at hg; cases hg
    | jint n => dsimp only at hg; cases hg
    | jnum f => dsimp only at hg; cases hg
    | jstr s2 => dsimp only at hg; cases hg
    | jarr xs => dsimp only at hg; cases hg

/-! ### Claim C9 -/

/-- **C9.** For both parsers, every returned line item's
`Invoice Serial Number` equals the `Serial Number` of the invoice record
returned by the same parse, and its `Invoice Number` equals that
record's `Invoice/Document Number` (the denormalized copy). -/
theorem item_backrefs (s provider : String) (t : Str) (resp : Obj) :
    (∀ it ∈ (SimplePDFParser.parse s t).2,
      lookupA it "Invoice Serial Number" =
        lookupA (SimplePDFParser.parse s t).1 "Serial Number" ∧
      lookupA it "Invoice Number" =
        lookupA (SimplePDFParser.parse s t).1 "Invoice/Document Number") ∧
    (∀ it ∈ (LLMPDFParser.parse s provider t resp).2,
      lookupA it "Invoice Serial Number" =
        lookupA (LLMPDFParser.parse s provider t resp).1 "Serial Number" ∧
      lookupA it "Invoice Number" =
        lookupA (LLMPDFParser.parse s provider t resp).1 "Invoice/Document Number") := by
  constructor
  · intro it hit
    have h2 : it ∈ SimplePDFParser.extract_line_items s
        (l2s (SimplePDFParser.extract_invoice_number t)) t := hit
    obtain ⟨hA, hB⟩ := mem_extract_line_items h2
    constructor
    · rw [hA]
      rfl
    · rw [hB]
      rfl
  · intro it hit
    unfold LLMPDFParser.parse at hit ⊢
    split_ifs at hit ⊢ with ht he
    · exact absurd hit (List.not_mem_nil it)
    · exact absurd hit (List.not_mem_nil it)
    · have herr : lookupA resp "error" = none := by
        cases hl : lookupA resp "error" with
        | none => rfl
        | some e =>
          rw [hl] at he
          exact absurd rfl he
      dsimp only at hit ⊢
      unfold LLMPDFParser.normalize_line_items at hit
      split_ifs at hit with h1
      · exact absurd hit (List.not_mem_nil it)
      · cases he2 : LLMPDFParser.enumItems ((lookupA resp "line_items").getD .jnull) with
        | error u =>
          simp only [he2] at hit
          exact absurd hit (List.not_mem_nil it)
        | ok xs =>
          simp only [he2] at hit
          cases hb : LLMPDFParser.buildItems s resp 0 xs with
          | error u =>
            simp only [hb] at hit
            exact absurd hit (List.not_mem_nil it)
          | ok l =>
            simp only [hb] at hit
            obtain ⟨invN, hg, hA, hB⟩ := buildItems_mem hb it hit
            constructor
            · rw [hA, nid_serial_lookup]
            · rw [hB, nid_invnum s provider resp invN herr hg]

/-- **C9, witness.** The back-references hold on a concrete table text
(simple parser) and a concrete fixed LLM response (LLM parser). -/
theorem item_backrefs_witness :
    (bkItemS ∈ (SimplePDFParser.parse "S" bkTxt).2 ∧
      lookupA bkItemS "Invoice Serial Number" =
        lookupA (SimplePDFParser.parse "S" bkTxt).1 "Serial Number" ∧
      lookupA bkItemS "Invoice Number" =
        lookupA (SimplePDFParser.parse "S" bkTxt).1 "Invoice/Document Number") ∧
    (bkItemL ∈ (LLMPDFParser.parse "S" "google" (s2l "x") bkResp).2 ∧
      lookupA bkItemL "Invoice Serial Number" =
        lookupA (LLMPDFParser.parse "S" "google" (s2l "x") bkResp).1 "Serial Number" ∧
      lookupA bkItemL "Invoice Number" =
        lookupA (LLMPDFParser.parse "S" "google" (s2l "x") bkResp).1
          "Invoice/Document Number") := by
  have hS : (SimplePDFParser.parse "S" bkTxt).2 = [bkItemS] := rfl
  have hL : (LLMPDFParser.parse "S" "google" (s2l "x") bkResp).2 = [bkItemL] := rfl
  have hmS : bkItemS ∈ (SimplePDFParser.parse "S" bkTxt).2 := by
    rw [hS]
    exact List.mem_singleton_self bkItemS
  have hmL : bkItemL ∈ (LLMPDFParser.parse "S" "google" (s2l "x") bkResp).2 := by
    rw [hL]
    exact List.mem_singleton_self bkItemL
  exact ⟨⟨hmS, (item_backrefs "S" "google" bkTxt bkResp).1 bkItemS hmS⟩,
         ⟨hmL, (item_backrefs "S" "google" (s2l "x") bkResp).2 bkItemL hmL⟩⟩
